import Mathlib

/-!
# AVPlayerCore: synchronisation core of the media player

Shallow embedding of `avplayer/source/AVPlayerCore.cpp`.

* `uint64_t` values are natural numbers below `2^64`; every arithmetic
  operation of the source is followed by an explicit reduction modulo `2^64`.
* `int` results are integers; the casts `(int)` and `(int64_t)` of the source
  are the functions `toInt32` and `toInt64`.
* A payload pointer is a natural number, `0` being `NULL`.
* The notification sink is external: the calls made to it are recorded, in
  order, in the field `trace`; the value returned by `on_audio` is given by a
  function of the calls made so far and of the payload.
* The field `qreads` counts the calls of `Read` on either queue.
-/

namespace AVPlayer

/-! ## Machine arithmetic -/

/-- Addition of two `uint64_t` values. -/
def u64add (a b : Nat) : Nat := (a + b) % 2 ^ 64

/-- Subtraction of two `uint64_t` values (wraps around below zero). -/
def u64sub (a b : Nat) : Nat := (a + (2 ^ 64 - b % 2 ^ 64)) % 2 ^ 64

/-- The cast `(int)` of a `uint64_t` value: the low 32 bits, read as signed. -/
def toInt32 (x : Nat) : Int :=
  if x % 2 ^ 32 < 2 ^ 31 then ((x % 2 ^ 32 : Nat) : Int)
  else ((x % 2 ^ 32 : Nat) : Int) - 2 ^ 32

/-- The cast `(int64_t)` of a `uint64_t` value. -/
def toInt64 (x : Nat) : Int :=
  if x % 2 ^ 64 < 2 ^ 63 then ((x % 2 ^ 64 : Nat) : Int)
  else ((x % 2 ^ 64 : Nat) : Int) - 2 ^ 64

/-- Source: `inline int v_min(int x, int y) { return x < y ? x : y; }`. -/
def v_min (x y : Int) : Int := if x < y then x else y

/-- Source: `#define TIMEOUT_DEFAULT 20`. -/
def TIMEOUT_DEFAULT : Int := 20

/-- Source: `#define AUDIO_SAMPLE_THRESHOLD 100`. -/
def AUDIO_SAMPLE_THRESHOLD : Int := 100

/-! ## Data model -/

/-- One frame: payload pointer (`0` is `NULL`), timestamp, duration, serial. -/
structure AVFrame where
  frame : Nat
  pts : Nat
  duration : Nat
  serial : Int
deriving DecidableEq, Repr

/-- A stream clock (`m_vclock`, `m_aclock`, `m_system`). -/
structure AVClock where
  pts : Nat
  clock : Nat
  frame_time : Nat
  duration : Nat
deriving DecidableEq, Repr

/-- Player status. -/
inductive Status where
  | close
  | play
  | pause
  | stop
deriving DecidableEq, Repr

/-- One call made to the notification sink. -/
inductive SinkCall where
  | on_video (frame : Nat) (discard : Nat)
  | on_audio (frame : Nat) (discard : Nat)
  | on_buffering (buffering : Nat)
deriving DecidableEq, Repr

/-- Modelled from the spec: the frame queue class (`m_videoQ`, `m_audioQ`),
whose declaration is not part of the source file. It is an insertion-ordered
sequence of frames together with the current serial (epoch). -/
structure AVFrameQueue where
  frames : List AVFrame
  serial : Int
deriving DecidableEq, Repr

namespace AVFrameQueue

/-- Modelled from the spec: `write(frame)` of the frame queue appends. -/
def Write (q : AVFrameQueue) (f : AVFrame) : AVFrameQueue :=
  { q with frames := q.frames ++ [f] }

/-- Modelled from the spec: `read()` of the frame queue pops the oldest entry
if any, and has no effect on an empty queue. -/
def Read (q : AVFrameQueue) : Option (AVFrame × AVFrameQueue) :=
  match q.frames with
  | [] => none
  | f :: rest => some (f, { q with frames := rest })

/-- Modelled from the spec: `size()` of the frame queue. -/
def Size (q : AVFrameQueue) : Nat := q.frames.length

/-- Modelled from the spec: `queuedDuration()` of the frame queue, the sum of
the durations of the queued frames. -/
def GetDuration (q : AVFrameQueue) : Nat := (q.frames.map AVFrame.duration).sum

/-- Modelled from the spec: `currentEpoch()` of the frame queue. -/
def GetSerial (q : AVFrameQueue) : Int := q.serial

/-- Modelled from the spec: `bumpEpoch()` of the frame queue. -/
def BumpSerial (q : AVFrameQueue) : AVFrameQueue :=
  { q with serial := q.serial + 1 }

end AVFrameQueue

/-- The value returned by the sink for `on_audio(param, pcm, 0)`, as a function
of the calls made to the sink so far and of the payload. -/
abbrev AudioSink := List SinkCall → Nat → Nat

/-- The engine state: the members of `AVPlayerCore`, the recorded sink calls
and the number of queue reads. -/
structure AVPlayerCore where
  m_status : Status
  m_buffering : Bool
  m_video : AVFrame
  m_audio : AVFrame
  m_vclock : AVClock
  m_aclock : AVClock
  m_system : AVClock
  m_videoQ : AVFrameQueue
  m_audioQ : AVFrameQueue
  trace : List SinkCall
  qreads : Nat
deriving DecidableEq, Repr

/-- The result of `memset(&frame, 0, sizeof(frame))`. -/
def AVFrame.zero : AVFrame := { frame := 0, pts := 0, duration := 0, serial := 0 }

/-- The result of `memset(&clock, 0, sizeof(clock))`. -/
def AVClock.zero : AVClock := { pts := 0, clock := 0, frame_time := 0, duration := 0 }

/-! ## Operations -/

/-- Source: `AVPlayerCore::AVPlayerCore`. The queues are default constructed;
their initial serials are parameters. -/
def construct (vserial aserial : Int) : AVPlayerCore :=
  { m_status := Status.close
    m_buffering := true
    m_video := AVFrame.zero
    m_audio := AVFrame.zero
    m_vclock := AVClock.zero
    m_aclock := AVClock.zero
    m_system := AVClock.zero
    m_videoQ := { frames := [], serial := vserial }
    m_audioQ := { frames := [], serial := aserial }
    trace := []
    qreads := 0 }

/-- Source: `AVPlayerCore::Play`. -/
def Play (s : AVPlayerCore) : AVPlayerCore :=
  { s with m_vclock := AVClock.zero, m_aclock := AVClock.zero, m_status := Status.play }

/-- Source: `AVPlayerCore::Pause`. -/
def Pause (s : AVPlayerCore) : AVPlayerCore :=
  { s with m_status := Status.pause }

/-- Source: `AVPlayerCore::Stop`. -/
def Stop (s : AVPlayerCore) : AVPlayerCore :=
  { s with m_status := Status.stop }

/-- Source: `AVPlayerCore::Input(const void* pcm, uint64_t pts, uint64_t duration, int serial)`. -/
def InputAudio (pcm pts duration : Nat) (serial : Int) (s : AVPlayerCore) : AVPlayerCore :=
  { s with m_audioQ := s.m_audioQ.Write ⟨pcm, pts, duration, serial⟩ }

/-- Source: `AVPlayerCore::Input(const void* yuv, uint64_t pts, int serial)`. -/
def InputVideo (yuv pts : Nat) (serial : Int) (s : AVPlayerCore) : AVPlayerCore :=
  { s with m_videoQ := s.m_videoQ.Write ⟨yuv, pts, 0, serial⟩ }

/-- Source: `m_videoQ.Read(m_video)`. -/
def readVideo (s : AVPlayerCore) : AVPlayerCore :=
  match s.m_videoQ.Read with
  | none => { s with qreads := s.qreads + 1 }
  | some (f, q) => { s with m_video := f, m_videoQ := q, qreads := s.qreads + 1 }

/-- Source: `m_audioQ.Read(m_audio)`. -/
def readAudio (s : AVPlayerCore) : AVPlayerCore :=
  match s.m_audioQ.Read with
  | none => { s with qreads := s.qreads + 1 }
  | some (f, q) => { s with m_audio := f, m_audioQ := q, qreads := s.qreads + 1 }

/-- Source: `AVPlayerCore::AVSync`. -/
def AVSync (clock : Nat) (s : AVPlayerCore) : AVPlayerCore :=
  if u64add s.m_audio.pts s.m_audio.duration < s.m_aclock.frame_time then s
  else
    let sys : AVClock :=
      { s.m_system with
        pts := u64sub (u64add s.m_audio.pts s.m_audio.duration) s.m_aclock.frame_time
        clock := clock }
    let s1 := { s with m_system := sys }
    if u64sub sys.clock s1.m_vclock.frame_time > 100 then
      { s1 with m_vclock := { s1.m_vclock with pts := sys.pts, frame_time := sys.clock } }
    else s1

/-- The delta of `OnVideo`: `diff = m_video.pts - m_vclock.pts;
if (diff > 20 * 1000) diff = 40;`. -/
def videoDiff (s : AVPlayerCore) : Nat :=
  if u64sub s.m_video.pts s.m_vclock.pts > 20 * 1000 then 40
  else u64sub s.m_video.pts s.m_vclock.pts

/-- Source: `AVPlayerCore::OnVideo`. -/
def OnVideo (clock : Nat) (s : AVPlayerCore) : Int × AVPlayerCore :=
  if s.m_video.serial ≠ s.m_videoQ.GetSerial then
    (0, { s with
            trace := s.trace ++ [SinkCall.on_video s.m_video.frame 1]
            m_video := { s.m_video with frame := 0 } })
  else
    let diff := videoDiff s
    if clock < u64add s.m_vclock.frame_time diff then
      (toInt32 (u64sub (u64add s.m_vclock.frame_time diff) clock), s)
    else
      let ft := u64add s.m_vclock.frame_time diff
      let ft1 := if u64sub clock ft > 100 then clock else ft
      (0, { s with
              m_vclock := { s.m_vclock with frame_time := ft1, clock := clock, pts := s.m_video.pts }
              m_video := { s.m_video with frame := 0 }
              trace := s.trace ++ [SinkCall.on_video s.m_video.frame 0] })

/-- Source: `AVPlayerCore::OnAudio`. -/
def OnAudio (notify : AudioSink) (clock : Nat) (s : AVPlayerCore) : Int × AVPlayerCore :=
  if s.m_audio.serial ≠ s.m_audioQ.GetSerial then
    (0, { s with
            trace := s.trace ++ [SinkCall.on_audio s.m_audio.frame 1]
            m_audio := { s.m_audio with frame := 0 } })
  else
    let duration := toInt64 (u64sub s.m_aclock.frame_time (u64sub clock s.m_aclock.clock))
    if duration > AUDIO_SAMPLE_THRESHOLD then
      (AUDIO_SAMPLE_THRESHOLD / 2, s)
    else
      let pts := if s.m_aclock.duration > 0 then u64add s.m_aclock.pts s.m_aclock.duration
                 else s.m_audio.pts
      let pcm := s.m_audio.frame
      let s1 := { s with
                    m_aclock := { s.m_aclock with
                                    clock := clock, pts := pts, duration := s.m_audio.duration
                                    frame_time := notify s.trace pcm % 2 ^ 64 }
                    m_audio := { s.m_audio with frame := 0 }
                    trace := s.trace ++ [SinkCall.on_audio pcm 0] }
      (0, AVSync clock s1)

/-- Source: `AVPlayerCore::OnPlay`. -/
def OnPlay (notify : AudioSink) (clock : Nat) (s : AVPlayerCore) : Int × AVPlayerCore :=
  if s.m_buffering = true ∧ s.m_videoQ.Size < 3 ∧ s.m_audioQ.GetDuration < 100 then
    (TIMEOUT_DEFAULT, s)
  else
    let s1 := if s.m_video.frame = 0 then readVideo s else s
    let s2 := if s1.m_audio.frame = 0 then readAudio s1 else s1
    if s2.m_video.frame = 0 ∧ s2.m_audio.frame = 0 then
      (TIMEOUT_DEFAULT,
        { s2 with m_buffering := true, trace := s2.trace ++ [SinkCall.on_buffering 1] })
    else
      let s3 := if s2.m_buffering = true then
          { s2 with m_buffering := false, trace := s2.trace ++ [SinkCall.on_buffering 0] }
        else s2
      let ra := if s3.m_audio.frame ≠ 0 then
          ((v_min (OnAudio notify clock s3).1 TIMEOUT_DEFAULT), (OnAudio notify clock s3).2)
        else (TIMEOUT_DEFAULT, s3)
      if ra.2.m_video.frame ≠ 0 then
        (v_min (OnVideo clock ra.2).1 ra.1, (OnVideo clock ra.2).2)
      else ra

/-- The loop `while(m_videoQ.Read(m_video)) m_notify.on_video(m_notify_param, m_video.frame, 1);`
of the destructor, run for at most `fuel` iterations. -/
def drainVideoQ : Nat → AVPlayerCore → AVPlayerCore
  | 0, s => s
  | fuel + 1, s =>
    match s.m_videoQ.Read with
    | none => { s with qreads := s.qreads + 1 }
    | some (f, q) =>
      drainVideoQ fuel { s with
        m_video := f, m_videoQ := q, qreads := s.qreads + 1
        trace := s.trace ++ [SinkCall.on_video f.frame 1] }

/-- The loop `while(m_audioQ.Read(m_audio)) m_notify.on_audio(m_notify_param, m_audio.frame, 1);`
of the destructor, run for at most `fuel` iterations. -/
def drainAudioQ : Nat → AVPlayerCore → AVPlayerCore
  | 0, s => s
  | fuel + 1, s =>
    match s.m_audioQ.Read with
    | none => { s with qreads := s.qreads + 1 }
    | some (f, q) =>
      drainAudioQ fuel { s with
        m_audio := f, m_audioQ := q, qreads := s.qreads + 1
        trace := s.trace ++ [SinkCall.on_audio f.frame 1] }

/-- Source: the frame clearing of `AVPlayerCore::~AVPlayerCore`, the video loop
run with `fv` iterations at most and the audio loop with `fa`. -/
def destructWith (fv fa : Nat) (s : AVPlayerCore) : AVPlayerCore :=
  let s1 := if s.m_video.frame ≠ 0 then
      { s with trace := s.trace ++ [SinkCall.on_video s.m_video.frame 1] } else s
  let s2 := if s1.m_audio.frame ≠ 0 then
      { s1 with trace := s1.trace ++ [SinkCall.on_audio s1.m_audio.frame 1] } else s1
  drainAudioQ fa (drainVideoQ fv s2)

/-- Source: the frame clearing of `AVPlayerCore::~AVPlayerCore`. Each loop ends
at the first `Read` that fails, which is one more call than the queue has frames. -/
def destruct (s : AVPlayerCore) : AVPlayerCore :=
  destructWith (s.m_videoQ.Size + 1) (s.m_audioQ.Size + 1) s

/-! ## Observations on a step -/

/-- The sink calls made between the state `s` and the later state `t`. -/
def emitted (s t : AVPlayerCore) : List SinkCall := t.trace.drop s.trace.length

/-- The state of `OnPlay` after the two `Read` calls that fill the pending slots. -/
def fillSlots (s : AVPlayerCore) : AVPlayerCore :=
  let s1 := if s.m_video.frame = 0 then readVideo s else s
  if s1.m_audio.frame = 0 then readAudio s1 else s1

/-- The call is `on_video` or `on_audio`. -/
def SinkCall.isFrame : SinkCall → Bool
  | SinkCall.on_video _ _ => true
  | SinkCall.on_audio _ _ => true
  | SinkCall.on_buffering _ => false

/-- The buffering gate of `OnPlay`. -/
def gateClosed (s : AVPlayerCore) : Prop :=
  s.m_buffering = true ∧ s.m_videoQ.Size < 3 ∧ s.m_audioQ.GetDuration < 100

instance (s : AVPlayerCore) : Decidable (gateClosed s) := by
  unfold gateClosed
  infer_instance

/-- The part of `OnPlay` that clears the buffering flag. -/
def clearBuffering (s : AVPlayerCore) : AVPlayerCore :=
  if s.m_buffering = true then
    { s with m_buffering := false, trace := s.trace ++ [SinkCall.on_buffering 0] }
  else s

/-- The part of `OnPlay` that runs the audio step. -/
def playAudio (notify : AudioSink) (clock : Nat) (s : AVPlayerCore) : Int × AVPlayerCore :=
  if s.m_audio.frame ≠ 0 then
    ((v_min (OnAudio notify clock s).1 TIMEOUT_DEFAULT), (OnAudio notify clock s).2)
  else (TIMEOUT_DEFAULT, s)

/-- The part of `OnPlay` that runs the video step, after the audio step
returned the timeout `t`. -/
def playVideo (clock : Nat) (t : Int) (s : AVPlayerCore) : Int × AVPlayerCore :=
  if s.m_video.frame ≠ 0 then (v_min (OnVideo clock s).1 t, (OnVideo clock s).2)
  else (t, s)

/-! ## Concrete states used in counterexamples and witnesses -/

/-- A constructed and started engine holding three video frames (payloads 1, 2,
3, timestamps 0, 40, 80, serial 0) and no audio. -/
def threeVideoFrames : AVPlayerCore :=
  InputVideo 3 80 0 (InputVideo 2 40 0 (InputVideo 1 0 0 (Play (construct 0 0))))

/-- A sink whose `on_audio` always returns 0. -/
def silentSink : AudioSink := fun _ _ => 0

/-- A playing engine, not buffering, with the video frame `f` pending and the
video virtual clock at `ft`. -/
def videoPending (f : AVFrame) (ft : Nat) : AVPlayerCore :=
  { Play (construct 0 0) with
    m_buffering := false
    m_video := f
    m_vclock := { AVClock.zero with frame_time := ft } }

/-- The call is `on_video`. -/
def SinkCall.isVideo : SinkCall → Bool
  | SinkCall.on_video _ _ => true
  | _ => false

/-- The call is `on_audio`. -/
def SinkCall.isAudio : SinkCall → Bool
  | SinkCall.on_audio _ _ => true
  | _ => false

/-- The calls the destructor makes for the pending frames. -/
def pendingDiscards (s : AVPlayerCore) : List SinkCall :=
  (if s.m_video.frame ≠ 0 then [SinkCall.on_video s.m_video.frame 1] else [])
    ++ (if s.m_audio.frame ≠ 0 then [SinkCall.on_audio s.m_audio.frame 1] else [])

/-! ## Runs of the engine -/

/-- One call made on the engine: a transport command, a frame write, or one
scheduling step at the given clock value. -/
inductive Action where
  | play
  | pause
  | stop
  | inputVideo (yuv pts : Nat) (serial : Int)
  | inputAudio (pcm pts duration : Nat) (serial : Int)
  | onPlay (clock : Nat)
deriving DecidableEq, Repr

/-- The effect of one call on the engine state. -/
def step (notify : AudioSink) (a : Action) (s : AVPlayerCore) : AVPlayerCore :=
  match a with
  | Action.play => Play s
  | Action.pause => Pause s
  | Action.stop => Stop s
  | Action.inputVideo yuv pts serial => InputVideo yuv pts serial s
  | Action.inputAudio pcm pts duration serial => InputAudio pcm pts duration serial s
  | Action.onPlay clock => (OnPlay notify clock s).2

/-- The effect of a sequence of calls, the first call of the list first. -/
def run (notify : AudioSink) : List Action → AVPlayerCore → AVPlayerCore
  | [], s => s
  | a :: rest, s => run notify rest (step notify a s)

/-- The trace has an `on_buffering(b)` call before its first `on_video` or
`on_audio` call (or has no such call at all). -/
def bufferingBeforeFrames (b : Nat) : List SinkCall → Bool
  | [] => true
  | SinkCall.on_buffering x :: rest => if x = b then true else bufferingBeforeFrames b rest
  | SinkCall.on_video _ _ :: _ => false
  | SinkCall.on_audio _ _ :: _ => false

/-- The video frames written by a sequence of calls, in the order written. -/
def videoInputs : List Action → List AVFrame
  | [] => []
  | Action.inputVideo yuv pts serial :: rest => ⟨yuv, pts, 0, serial⟩ :: videoInputs rest
  | _ :: rest => videoInputs rest

/-- The pending video frame, as a list of at most one frame. -/
def pendingVideo (s : AVPlayerCore) : List AVFrame :=
  if s.m_video.frame = 0 then [] else [s.m_video]

/-- The calls of `on_video` in a trace, in order. -/
def videoCalls (tr : List SinkCall) : List SinkCall := tr.filter SinkCall.isVideo

/-- The invariant behind C2: either the flag is still set and the sink has only
seen underrun notifications, or `on_buffering(0)` came before any frame call. -/
def startInv (s : AVPlayerCore) : Prop :=
  (s.m_buffering = true ∧ ∀ c ∈ s.trace, c = SinkCall.on_buffering 1)
  ∨ ∃ pre post, s.trace = pre ++ SinkCall.on_buffering 0 :: post
      ∧ ∀ c ∈ pre, c = SinkCall.on_buffering 1

/-- The invariant behind C5: the video frames written so far are the delivered
ones, then the pending one, then the queued ones, and every delivery was a
presentation (discard=0). -/
def fifoInv (vs : Int) (written : List AVFrame) (s : AVPlayerCore) : Prop :=
  s.m_videoQ.serial = vs
  ∧ ∃ delivered, written = delivered ++ (pendingVideo s ++ s.m_videoQ.frames)
      ∧ videoCalls s.trace = delivered.map (fun f => SinkCall.on_video f.frame 0)

/-- The calls of the C5 counterexample: the first frame written has a `NULL` payload. -/
def nullFirstRun : List Action :=
  [Action.play, Action.inputVideo 0 0 0, Action.inputVideo 2 40 0, Action.inputVideo 3 80 0,
    Action.onPlay 1000, Action.inputVideo 4 120 0, Action.onPlay 2000]

/-- The engine after construction, `Play()` and the writes of three video
frames with timestamps 0, 40, 80 under the video queue's serial. -/
def scenarioStart (vs as : Int) (f0 f1 f2 : Nat) : AVPlayerCore :=
  InputVideo f2 80 vs (InputVideo f1 40 vs (InputVideo f0 0 vs (Play (construct vs as))))

/-- A sequence of `OnPlay` steps at the given clock values: the values returned
and the final state. -/
def steps (notify : AudioSink) : List Nat → AVPlayerCore → List Int × AVPlayerCore
  | [], s => ([], s)
  | t :: ts, s =>
    ((OnPlay notify t s).1 :: (steps notify ts (OnPlay notify t s).2).1,
      (steps notify ts (OnPlay notify t s).2).2)

/-- The delta of `OnVideo` for a frame with timestamp `pts` after a frame with
timestamp `last`. -/
def frameDelta (pts last : Nat) : Nat :=
  if u64sub pts last > 20 * 1000 then 40 else u64sub pts last

/-- The engine plays video only: it is not buffering, has no audio, its video
clock is `vc`, its trace is `tr`, and the video frames pending and queued are `fs`. -/
def Waiting (vs : Int) (vc : AVClock) (tr : List SinkCall) (fs : List AVFrame)
    (s : AVPlayerCore) : Prop :=
  s.m_buffering = false ∧ s.m_audio.frame = 0 ∧ s.m_audioQ.frames = []
    ∧ s.m_videoQ.serial = vs ∧ s.m_vclock = vc ∧ s.trace = tr
    ∧ pendingVideo s ++ s.m_videoQ.frames = fs

/-- A playing engine, not buffering, with the audio frame `f` pending, the audio
clock `ac` and the video virtual clock at `vft`. -/
def audioPending (f : AVFrame) (ac : AVClock) (vft : Nat) : AVPlayerCore :=
  { Play (construct 0 0) with
    m_buffering := false
    m_audio := f
    m_aclock := ac
    m_vclock := { AVClock.zero with frame_time := vft } }

/-- A sink whose `on_audio` always returns 30. -/
def steadySink : AudioSink := fun _ _ => 30

/-- Source: one iteration of the loop of `AVPlayerCore::OnThread`, with the
local variable `timeout`. `timedOut` tells whether `m_event.TimeWait(timeout)`
returned `WAIT_TIMEOUT`, and `clock` is the value of `system_clock()`. -/
def OnThreadIter (notify : AudioSink) (timedOut : Bool) (clock : Nat) (timeout : Int)
    (s : AVPlayerCore) : Int × AVPlayerCore :=
  if timedOut = true then
    if s.m_status = Status.play then OnPlay notify clock s else (timeout, s)
  else (timeout, s)

/-- The invariant behind C18: while the buffering flag is set, no frame is pending. -/
def idleInv (s : AVPlayerCore) : Prop :=
  s.m_buffering = true → s.m_video.frame = 0 ∧ s.m_audio.frame = 0

/-- The pending audio frame, as a list of at most one frame. -/
def pendingAudio (s : AVPlayerCore) : List AVFrame :=
  if s.m_audio.frame = 0 then [] else [s.m_audio]

/-- No queued frame has a `NULL` payload. -/
def queuesNonNull (s : AVPlayerCore) : Prop :=
  (∀ f ∈ s.m_videoQ.frames, f.frame ≠ 0) ∧ (∀ f ∈ s.m_audioQ.frames, f.frame ≠ 0)

/-- The call does not write a frame with a `NULL` payload. -/
def Action.nonNull : Action → Prop
  | Action.inputVideo yuv _ _ => yuv ≠ 0
  | Action.inputAudio pcm _ _ _ => pcm ≠ 0
  | _ => True

/-- The arguments of the `on_buffering` calls of a trace, in order. -/
def bufValues : List SinkCall → List Nat
  | [] => []
  | SinkCall.on_buffering b :: rest => b :: bufValues rest
  | _ :: rest => bufValues rest

/-- The buffering flag after a sequence of `on_buffering` arguments, starting
from the flag `cur`, provided every argument is the opposite of the flag at
that point (1 when the flag is clear, 0 when it is set); `none` otherwise. -/
def flagAfter : Bool → List Nat → Option Bool
  | cur, [] => some cur
  | cur, x :: rest =>
    if x = (if cur = true then 0 else 1) then flagAfter (!cur) rest else none

/-- The invariant behind C17: the `on_buffering` calls so far alternate and end
at the current flag, and no queued payload is `NULL`. -/
def toggleInv (s : AVPlayerCore) : Prop :=
  flagAfter true (bufValues s.trace) = some s.m_buffering ∧ queuesNonNull s

/-! ## Basic facts -/

lemma videoDiff_le (s : AVPlayerCore) : videoDiff s ≤ 20000 := by
  unfold videoDiff
  split <;> omega

lemma OnVideo_stale (c : Nat) (s : AVPlayerCore)
    (h : s.m_video.serial ≠ s.m_videoQ.GetSerial) :
    OnVideo c s = (0, { s with
      trace := s.trace ++ [SinkCall.on_video s.m_video.frame 1]
      m_video := { s.m_video with frame := 0 } }) := by
  unfold OnVideo
  rw [if_pos h]

lemma OnVideo_defer (c : Nat) (s : AVPlayerCore)
    (h : s.m_video.serial = s.m_videoQ.GetSerial)
    (hlt : c < u64add s.m_vclock.frame_time (videoDiff s)) :
    OnVideo c s = (toInt32 (u64sub (u64add s.m_vclock.frame_time (videoDiff s)) c), s) := by
  unfold OnVideo
  simp only [ne_eq, h, not_true_eq_false, if_false, hlt, if_true]

lemma OnVideo_present (c : Nat) (s : AVPlayerCore)
    (h : s.m_video.serial = s.m_videoQ.GetSerial)
    (hge : ¬ c < u64add s.m_vclock.frame_time (videoDiff s)) :
    OnVideo c s = (0, { s with
      m_vclock := { s.m_vclock with
        frame_time := if u64sub c (u64add s.m_vclock.frame_time (videoDiff s)) > 100 then c
          else u64add s.m_vclock.frame_time (videoDiff s)
        clock := c, pts := s.m_video.pts }
      m_video := { s.m_video with frame := 0 }
      trace := s.trace ++ [SinkCall.on_video s.m_video.frame 0] }) := by
  unfold OnVideo
  simp only [ne_eq, h, not_true_eq_false, if_false, hge]

lemma OnAudio_stale (n : AudioSink) (c : Nat) (s : AVPlayerCore)
    (h : s.m_audio.serial ≠ s.m_audioQ.GetSerial) :
    OnAudio n c s = (0, { s with
      trace := s.trace ++ [SinkCall.on_audio s.m_audio.frame 1]
      m_audio := { s.m_audio with frame := 0 } }) := by
  unfold OnAudio
  rw [if_pos h]

lemma AVSync_trace (c : Nat) (s : AVPlayerCore) : (AVSync c s).trace = s.trace := by
  unfold AVSync
  split
  · rfl
  · dsimp only
    split <;> rfl

lemma AVSync_frames (c : Nat) (s : AVPlayerCore) :
    (AVSync c s).m_video = s.m_video ∧ (AVSync c s).m_audio = s.m_audio
      ∧ (AVSync c s).m_videoQ = s.m_videoQ ∧ (AVSync c s).m_audioQ = s.m_audioQ
      ∧ (AVSync c s).m_buffering = s.m_buffering ∧ (AVSync c s).m_aclock = s.m_aclock := by
  unfold AVSync
  split
  · simp
  · dsimp only
    split <;> simp

lemma AVSync_frame_time (c : Nat) (s : AVPlayerCore) :
    (AVSync c s).m_vclock.frame_time = s.m_vclock.frame_time
      ∨ (AVSync c s).m_vclock.frame_time = c := by
  unfold AVSync
  split
  · simp
  · dsimp only
    split <;> simp

lemma OnVideo_frame (c : Nat) (s : AVPlayerCore) :
    (OnVideo c s).2.m_videoQ = s.m_videoQ ∧ (OnVideo c s).2.m_audio = s.m_audio
      ∧ (OnVideo c s).2.m_audioQ = s.m_audioQ ∧ (OnVideo c s).2.m_buffering = s.m_buffering
      ∧ (OnVideo c s).2.m_aclock = s.m_aclock ∧ (OnVideo c s).2.m_status = s.m_status := by
  unfold OnVideo
  split
  · simp
  · dsimp only
    split <;> simp

lemma OnAudio_frame (n : AudioSink) (c : Nat) (s : AVPlayerCore) :
    (OnAudio n c s).2.m_videoQ = s.m_videoQ ∧ (OnAudio n c s).2.m_video = s.m_video
      ∧ (OnAudio n c s).2.m_audioQ = s.m_audioQ
      ∧ (OnAudio n c s).2.m_buffering = s.m_buffering := by
  unfold OnAudio
  split
  · simp
  · dsimp only
    split
    · simp
    · simp [(AVSync_frames _ _)]

/-- The three outcomes of `OnVideo` on the trace and the pending slot. -/
lemma OnVideo_cases (c : Nat) (s : AVPlayerCore) :
    ((OnVideo c s).2 = s ∧ s.m_video.serial = s.m_videoQ.GetSerial
        ∧ c < u64add s.m_vclock.frame_time (videoDiff s))
    ∨ ((OnVideo c s).1 = 0
        ∧ (OnVideo c s).2.trace = s.trace ++ [SinkCall.on_video s.m_video.frame 1]
        ∧ (OnVideo c s).2.m_video.frame = 0 ∧ s.m_video.serial ≠ s.m_videoQ.GetSerial)
    ∨ ((OnVideo c s).1 = 0
        ∧ (OnVideo c s).2.trace = s.trace ++ [SinkCall.on_video s.m_video.frame 0]
        ∧ (OnVideo c s).2.m_video.frame = 0 ∧ s.m_video.serial = s.m_videoQ.GetSerial
        ∧ ¬ c < u64add s.m_vclock.frame_time (videoDiff s)) := by
  by_cases h : s.m_video.serial = s.m_videoQ.GetSerial
  · by_cases hlt : c < u64add s.m_vclock.frame_time (videoDiff s)
    · left
      rw [OnVideo_defer c s h hlt]
      exact ⟨rfl, h, hlt⟩
    · right; right
      rw [OnVideo_present c s h hlt]
      exact ⟨rfl, rfl, rfl, h, hlt⟩
  · right; left
    rw [OnVideo_stale c s h]
    exact ⟨rfl, rfl, rfl, h⟩

lemma OnAudio_defer (n : AudioSink) (c : Nat) (s : AVPlayerCore)
    (h : s.m_audio.serial = s.m_audioQ.GetSerial)
    (hd : toInt64 (u64sub s.m_aclock.frame_time (u64sub c s.m_aclock.clock))
      > AUDIO_SAMPLE_THRESHOLD) :
    OnAudio n c s = (50, s) := by
  unfold OnAudio
  simp only [ne_eq, h, not_true_eq_false, if_false, hd, if_true]
  rfl

lemma OnAudio_present (n : AudioSink) (c : Nat) (s : AVPlayerCore)
    (h : s.m_audio.serial = s.m_audioQ.GetSerial)
    (hd : ¬ toInt64 (u64sub s.m_aclock.frame_time (u64sub c s.m_aclock.clock))
      > AUDIO_SAMPLE_THRESHOLD) :
    OnAudio n c s = (0, AVSync c { s with
      m_aclock := { s.m_aclock with
        clock := c
        pts := if s.m_aclock.duration > 0 then u64add s.m_aclock.pts s.m_aclock.duration
          else s.m_audio.pts
        duration := s.m_audio.duration
        frame_time := n s.trace s.m_audio.frame % 2 ^ 64 }
      m_audio := { s.m_audio with frame := 0 }
      trace := s.trace ++ [SinkCall.on_audio s.m_audio.frame 0] }) := by
  unfold OnAudio
  simp only [ne_eq, h, not_true_eq_false, if_false, hd]

/-- The three outcomes of `OnAudio` on the trace and the pending slot. -/
lemma OnAudio_cases (n : AudioSink) (c : Nat) (s : AVPlayerCore) :
    ((OnAudio n c s).1 = 50 ∧ (OnAudio n c s).2 = s
        ∧ s.m_audio.serial = s.m_audioQ.GetSerial)
    ∨ ((OnAudio n c s).1 = 0
        ∧ (OnAudio n c s).2.trace = s.trace ++ [SinkCall.on_audio s.m_audio.frame 1]
        ∧ (OnAudio n c s).2.m_audio.frame = 0 ∧ (OnAudio n c s).2.m_vclock = s.m_vclock
        ∧ s.m_audio.serial ≠ s.m_audioQ.GetSerial)
    ∨ ((OnAudio n c s).1 = 0
        ∧ (OnAudio n c s).2.trace = s.trace ++ [SinkCall.on_audio s.m_audio.frame 0]
        ∧ (OnAudio n c s).2.m_audio.frame = 0
        ∧ ((OnAudio n c s).2.m_vclock.frame_time = s.m_vclock.frame_time
            ∨ (OnAudio n c s).2.m_vclock.frame_time = c)
        ∧ s.m_audio.serial = s.m_audioQ.GetSerial) := by
  by_cases h : s.m_audio.serial = s.m_audioQ.GetSerial
  · by_cases hd : toInt64 (u64sub s.m_aclock.frame_time (u64sub c s.m_aclock.clock))
        > AUDIO_SAMPLE_THRESHOLD
    · left
      rw [OnAudio_defer n c s h hd]
      exact ⟨rfl, rfl, h⟩
    · right; right
      rw [OnAudio_present n c s h hd]
      refine ⟨rfl, ?_, ?_, ?_, h⟩
      · rw [AVSync_trace]
      · rw [(AVSync_frames _ _).2.1]
      · exact AVSync_frame_time _ _
  · right; left
    rw [OnAudio_stale n c s h]
    exact ⟨rfl, rfl, rfl, rfl, h⟩

/-! ## The structure of a step -/

lemma OnPlay_eq (n : AudioSink) (c : Nat) (s : AVPlayerCore) :
    OnPlay n c s =
      if gateClosed s then (TIMEOUT_DEFAULT, s)
      else if (fillSlots s).m_video.frame = 0 ∧ (fillSlots s).m_audio.frame = 0 then
        (TIMEOUT_DEFAULT, { fillSlots s with
          m_buffering := true
          trace := (fillSlots s).trace ++ [SinkCall.on_buffering 1] })
      else
        playVideo c (playAudio n c (clearBuffering (fillSlots s))).1
          (playAudio n c (clearBuffering (fillSlots s))).2 := by
  rfl

lemma readVideo_frame (s : AVPlayerCore) :
    (readVideo s).trace = s.trace ∧ (readVideo s).m_buffering = s.m_buffering
      ∧ (readVideo s).m_vclock = s.m_vclock ∧ (readVideo s).m_aclock = s.m_aclock
      ∧ (readVideo s).m_audio = s.m_audio ∧ (readVideo s).m_audioQ = s.m_audioQ
      ∧ (readVideo s).m_videoQ.serial = s.m_videoQ.serial
      ∧ (readVideo s).m_status = s.m_status := by
  unfold readVideo AVFrameQueue.Read
  split <;> rename_i h <;> split at h <;> simp_all
  obtain ⟨_, h2⟩ := h
  rw [← h2]

lemma readAudio_frame (s : AVPlayerCore) :
    (readAudio s).trace = s.trace ∧ (readAudio s).m_buffering = s.m_buffering
      ∧ (readAudio s).m_vclock = s.m_vclock ∧ (readAudio s).m_aclock = s.m_aclock
      ∧ (readAudio s).m_video = s.m_video ∧ (readAudio s).m_videoQ = s.m_videoQ
      ∧ (readAudio s).m_audioQ.serial = s.m_audioQ.serial
      ∧ (readAudio s).m_status = s.m_status := by
  unfold readAudio AVFrameQueue.Read
  split <;> rename_i h <;> split at h <;> simp_all
  obtain ⟨_, h2⟩ := h
  rw [← h2]

lemma fillSlots_frame (s : AVPlayerCore) :
    (fillSlots s).trace = s.trace ∧ (fillSlots s).m_buffering = s.m_buffering
      ∧ (fillSlots s).m_vclock = s.m_vclock ∧ (fillSlots s).m_aclock = s.m_aclock
      ∧ (fillSlots s).m_videoQ.serial = s.m_videoQ.serial
      ∧ (fillSlots s).m_audioQ.serial = s.m_audioQ.serial
      ∧ (fillSlots s).m_status = s.m_status := by
  unfold fillSlots
  dsimp only
  have hv := readVideo_frame s
  split <;> split <;> rename_i h1 h2
  · have ha := readAudio_frame (readVideo s)
    simp [ha, hv]
  · simp [hv]
  · have ha := readAudio_frame s
    simp [ha]
  · simp

lemma emitted_of_append {s t : AVPlayerCore} {l : List SinkCall}
    (h : t.trace = s.trace ++ l) : emitted s t = l := by
  unfold emitted
  rw [h, List.drop_left]

lemma emitted_self (s : AVPlayerCore) : emitted s s = [] := by
  unfold emitted
  simp

lemma clearBuffering_frame (s : AVPlayerCore) :
    (clearBuffering s).m_buffering = false ∧ (clearBuffering s).m_video = s.m_video
      ∧ (clearBuffering s).m_audio = s.m_audio ∧ (clearBuffering s).m_videoQ = s.m_videoQ
      ∧ (clearBuffering s).m_audioQ = s.m_audioQ ∧ (clearBuffering s).m_vclock = s.m_vclock
      ∧ (clearBuffering s).m_aclock = s.m_aclock
      ∧ (clearBuffering s).m_status = s.m_status := by
  unfold clearBuffering
  split
  · simp
  · simp_all

lemma clearBuffering_trace (s : AVPlayerCore) :
    (clearBuffering s).trace
      = s.trace ++ (if s.m_buffering = true then [SinkCall.on_buffering 0] else []) := by
  unfold clearBuffering
  split <;> simp

/-- The outcomes of the audio part of a step. -/
lemma playAudio_cases (n : AudioSink) (c : Nat) (s : AVPlayerCore) :
    ((playAudio n c s).2.m_video = s.m_video ∧ (playAudio n c s).2.m_videoQ = s.m_videoQ
      ∧ (playAudio n c s).2.m_audioQ = s.m_audioQ
      ∧ (playAudio n c s).2.m_buffering = s.m_buffering)
    ∧ ((playAudio n c s).2.m_vclock.frame_time = s.m_vclock.frame_time
        ∨ (playAudio n c s).2.m_vclock.frame_time = c)
    ∧ (((playAudio n c s).1 = 20 ∧ (playAudio n c s).2 = s)
      ∨ (∃ d, (d = 0 ∨ d = 1) ∧ (playAudio n c s).1 = 0
          ∧ (playAudio n c s).2.trace = s.trace ++ [SinkCall.on_audio s.m_audio.frame d]
          ∧ s.m_audio.frame ≠ 0 ∧ (playAudio n c s).2.m_audio.frame = 0
          ∧ (d = 0 ↔ s.m_audio.serial = s.m_audioQ.GetSerial))) := by
  unfold playAudio
  by_cases hf : s.m_audio.frame = 0
  · simp [hf, TIMEOUT_DEFAULT]
  · simp only [ne_eq, hf, not_false_eq_true, if_true]
    refine ⟨?_, ?_, ?_⟩
    · have := OnAudio_frame n c s
      tauto
    · rcases OnAudio_cases n c s with h | h | h
      · left; rw [h.2.1]
      · left; rw [h.2.2.2.1]
      · exact h.2.2.2.1
    · rcases OnAudio_cases n c s with h | h | h
      · left
        refine ⟨?_, h.2.1⟩
        rw [h.1]; decide
      · right
        refine ⟨1, Or.inr rfl, ?_, h.2.1, trivial, h.2.2.1, ?_⟩
        · rw [h.1]; decide
        · constructor
          · intro h1; exact absurd h1 (by decide)
          · intro h1; exact absurd h1 h.2.2.2.2
      · right
        refine ⟨0, Or.inl rfl, ?_, h.2.1, trivial, h.2.2.1, ?_⟩
        · rw [h.1]; decide
        · constructor
          · intro _; exact h.2.2.2.2
          · intro _; rfl

/-- The outcomes of the video part of a step. -/
lemma playVideo_cases (c : Nat) (t : Int) (s : AVPlayerCore) :
    ((playVideo c t s).2.m_audio = s.m_audio ∧ (playVideo c t s).2.m_videoQ = s.m_videoQ
      ∧ (playVideo c t s).2.m_audioQ = s.m_audioQ
      ∧ (playVideo c t s).2.m_buffering = s.m_buffering)
    ∧ (((playVideo c t s).2 = s
        ∧ ((playVideo c t s).1 = t ∧ s.m_video.frame = 0
          ∨ (playVideo c t s).1
              = v_min (toInt32 (u64sub (u64add s.m_vclock.frame_time (videoDiff s)) c)) t
            ∧ s.m_video.frame ≠ 0
            ∧ s.m_video.serial = s.m_videoQ.GetSerial
            ∧ c < u64add s.m_vclock.frame_time (videoDiff s)))
      ∨ (∃ d, (d = 0 ∨ d = 1) ∧ (playVideo c t s).1 = v_min 0 t
          ∧ (playVideo c t s).2.trace = s.trace ++ [SinkCall.on_video s.m_video.frame d]
          ∧ s.m_video.frame ≠ 0 ∧ (playVideo c t s).2.m_video.frame = 0
          ∧ (d = 0 ↔ s.m_video.serial = s.m_videoQ.GetSerial))) := by
  unfold playVideo
  by_cases hf : s.m_video.frame = 0
  · simp [hf]
  · simp only [ne_eq, hf, not_false_eq_true, if_true]
    refine ⟨?_, ?_⟩
    · have := OnVideo_frame c s
      tauto
    · rcases OnVideo_cases c s with h | h | h
      · left
        refine ⟨h.1, Or.inr ⟨?_, trivial, h.2.1, h.2.2⟩⟩
        rw [OnVideo_defer c s h.2.1 h.2.2]
      · right
        refine ⟨1, Or.inr rfl, ?_, h.2.1, trivial, h.2.2.1, ?_⟩
        · rw [h.1]
        · constructor
          · intro h1; exact absurd h1 (by decide)
          · intro h1; exact absurd h1 h.2.2.2
      · right
        refine ⟨0, Or.inl rfl, ?_, h.2.1, trivial, h.2.2.1, ?_⟩
        · rw [h.1]
        · constructor
          · intro _; exact h.2.2.2.1
          · intro _; rfl

/-- The sink calls of one step: nothing at the gate, `on_buffering(1)` on
underrun, and otherwise the optional `on_buffering(0)` followed by at most one
audio call and at most one video call, each for the frame in the pending slot. -/
lemma OnPlay_emitted (n : AudioSink) (c : Nat) (s : AVPlayerCore) :
    (OnPlay n c s).2.trace = s.trace ++ emitted s (OnPlay n c s).2
    ∧ (gateClosed s → OnPlay n c s = (20, s))
    ∧ (¬ gateClosed s → (fillSlots s).m_video.frame = 0 ∧ (fillSlots s).m_audio.frame = 0 →
        emitted s (OnPlay n c s).2 = [SinkCall.on_buffering 1]
        ∧ (OnPlay n c s).1 = 20 ∧ (OnPlay n c s).2.m_buffering = true)
    ∧ (¬ gateClosed s → ¬ ((fillSlots s).m_video.frame = 0 ∧ (fillSlots s).m_audio.frame = 0) →
        (OnPlay n c s).2.m_buffering = false
        ∧ ∃ a v, emitted s (OnPlay n c s).2
            = (if s.m_buffering = true then [SinkCall.on_buffering 0] else []) ++ a ++ v
          ∧ (a = [] ∨ ∃ d, (d = 0 ∨ d = 1)
              ∧ a = [SinkCall.on_audio (fillSlots s).m_audio.frame d]
              ∧ (fillSlots s).m_audio.frame ≠ 0
              ∧ (d = 0 ↔ (fillSlots s).m_audio.serial = s.m_audioQ.serial))
          ∧ (v = [] ∨ ∃ d, (d = 0 ∨ d = 1)
              ∧ v = [SinkCall.on_video (fillSlots s).m_video.frame d]
              ∧ (fillSlots s).m_video.frame ≠ 0
              ∧ (d = 0 ↔ (fillSlots s).m_video.serial = s.m_videoQ.serial))) := by
  have hfill := fillSlots_frame s
  by_cases hg : gateClosed s
  · have h : OnPlay n c s = (20, s) := by
      rw [OnPlay_eq, if_pos hg]; rfl
    refine ⟨?_, fun _ => h, fun h1 => absurd hg h1, fun h1 => absurd hg h1⟩
    rw [h, emitted_self]; simp
  · by_cases hn : (fillSlots s).m_video.frame = 0 ∧ (fillSlots s).m_audio.frame = 0
    · have h : OnPlay n c s = (20, { fillSlots s with
          m_buffering := true
          trace := (fillSlots s).trace ++ [SinkCall.on_buffering 1] }) := by
        rw [OnPlay_eq, if_neg hg, if_pos hn]; rfl
      have ht : (OnPlay n c s).2.trace = s.trace ++ [SinkCall.on_buffering 1] := by
        rw [h]; simp [hfill.1]
      refine ⟨?_, fun h1 => absurd h1 hg, fun _ _ => ⟨emitted_of_append ht, ?_, ?_⟩,
        fun _ h1 => absurd hn h1⟩
      · rw [emitted_of_append ht, ht]
      · rw [h]
      · rw [h]
    · have h : OnPlay n c s = playVideo c (playAudio n c (clearBuffering (fillSlots s))).1
          (playAudio n c (clearBuffering (fillSlots s))).2 := by
        rw [OnPlay_eq, if_neg hg, if_neg hn]
      have hcb := clearBuffering_frame (fillSlots s)
      have hct := clearBuffering_trace (fillSlots s)
      rw [hfill.1, hfill.2.1] at hct
      obtain ⟨ha1, _, ha2⟩ := playAudio_cases n c (clearBuffering (fillSlots s))
      obtain ⟨hv1, hv2⟩ := playVideo_cases c (playAudio n c (clearBuffering (fillSlots s))).1
        (playAudio n c (clearBuffering (fillSlots s))).2
      rw [← h] at hv1 hv2
      have key : (OnPlay n c s).2.m_buffering = false
          ∧ ∃ a v, (OnPlay n c s).2.trace
            = s.trace ++ ((if s.m_buffering = true then [SinkCall.on_buffering 0] else [])
                ++ a ++ v)
          ∧ (a = [] ∨ ∃ d, (d = 0 ∨ d = 1)
              ∧ a = [SinkCall.on_audio (fillSlots s).m_audio.frame d]
              ∧ (fillSlots s).m_audio.frame ≠ 0
              ∧ (d = 0 ↔ (fillSlots s).m_audio.serial = s.m_audioQ.serial))
          ∧ (v = [] ∨ ∃ d, (d = 0 ∨ d = 1)
              ∧ v = [SinkCall.on_video (fillSlots s).m_video.frame d]
              ∧ (fillSlots s).m_video.frame ≠ 0
              ∧ (d = 0 ↔ (fillSlots s).m_video.serial = s.m_videoQ.serial)) := by
        refine ⟨?_, ?_⟩
        · rw [hv1.2.2.2, ha1.2.2.2, hcb.1]
        · have hat : ∃ a, (playAudio n c (clearBuffering (fillSlots s))).2.trace
                = s.trace ++ ((if s.m_buffering = true then [SinkCall.on_buffering 0] else [])
                    ++ a)
              ∧ (a = [] ∨ ∃ d, (d = 0 ∨ d = 1)
                ∧ a = [SinkCall.on_audio (fillSlots s).m_audio.frame d]
                ∧ (fillSlots s).m_audio.frame ≠ 0
                ∧ (d = 0 ↔ (fillSlots s).m_audio.serial = s.m_audioQ.serial)) := by
            rcases ha2 with ha2 | ⟨d, hd, _, htr, hnz, _, hiff⟩
            · refine ⟨[], ?_, Or.inl rfl⟩
              rw [ha2.2, hct]; simp
            · refine ⟨[SinkCall.on_audio (fillSlots s).m_audio.frame d], ?_, Or.inr ⟨d, hd, ?_, ?_, ?_⟩⟩
              · rw [htr, hct, hcb.2.2.1]; simp
              · rfl
              · rw [hcb.2.2.1] at hnz; exact hnz
              · rw [hcb.2.2.1, hcb.2.2.2.2.1] at hiff
                unfold AVFrameQueue.GetSerial at hiff
                rw [hfill.2.2.2.2.2.1] at hiff
                exact hiff
          obtain ⟨a, hatr, hax⟩ := hat
          rcases hv2 with hv2 | ⟨d, hd, _, htr, hnz, _, hiff⟩
          · refine ⟨a, [], ?_, hax, Or.inl rfl⟩
            rw [hv2.1, hatr]; simp
          · refine ⟨a, [SinkCall.on_video (fillSlots s).m_video.frame d], ?_, hax,
              Or.inr ⟨d, hd, rfl, ?_, ?_⟩⟩
            · rw [htr, hatr, ha1.1, hcb.2.1]; simp
            · rw [ha1.1, hcb.2.1] at hnz; exact hnz
            · rw [ha1.1, ha1.2.1, hcb.2.1, hcb.2.2.2.1] at hiff
              unfold AVFrameQueue.GetSerial at hiff
              rw [hfill.2.2.2.2.1] at hiff
              exact hiff
      obtain ⟨hb, a, v, htr, hax, hvx⟩ := key
      refine ⟨?_, fun h1 => absurd h1 hg, fun _ h1 => absurd h1 hn,
        fun _ _ => ⟨hb, a, v, emitted_of_append htr, hax, hvx⟩⟩
      rw [emitted_of_append htr, htr]

lemma u64sub_of_le {a b : Nat} (hle : b ≤ a) (ha : a < 2 ^ 64) : u64sub a b = a - b := by
  unfold u64sub
  omega

lemma u64add_lt (a b : Nat) : u64add a b < 2 ^ 64 := by
  unfold u64add
  omega

/-! ## C1: the buffering gate -/

/-- C1, as stated, fails: with the buffering flag set, three video frames queued
and an empty audio queue (queued duration 0, below 100), `OnPlay` does not
return 20: it clears the flag, presents the first frame and returns 0. -/
theorem C1_counterexample :
    threeVideoFrames.m_buffering = true
    ∧ (threeVideoFrames.m_videoQ.Size < 3 ∨ threeVideoFrames.m_audioQ.GetDuration < 100)
    ∧ (OnPlay silentSink 1000 threeVideoFrames).1 = 0
    ∧ emitted threeVideoFrames (OnPlay silentSink 1000 threeVideoFrames).2
        = [SinkCall.on_buffering 0, SinkCall.on_video 1 0] := by
  decide

/-- C1 (amended): with the buffering flag set, if the video queue holds fewer
than 3 frames AND the audio queue's queued duration is below 100, `OnPlay`
returns 20 and leaves the whole state unchanged (no queue read, no sink call);
and a step emits `on_buffering(0)` only if the flag was set and the video count
was at least 3 OR the queued audio duration at least 100 at its start. -/
theorem C1_buffering_gate (notify : AudioSink) (clock : Nat) (s : AVPlayerCore) :
    (s.m_buffering = true → s.m_videoQ.Size < 3 → s.m_audioQ.GetDuration < 100 →
        OnPlay notify clock s = (20, s))
    ∧ (OnPlay notify clock s).2.trace = s.trace ++ emitted s (OnPlay notify clock s).2
    ∧ (SinkCall.on_buffering 0 ∈ emitted s (OnPlay notify clock s).2 →
        s.m_buffering = true ∧ (3 ≤ s.m_videoQ.Size ∨ 100 ≤ s.m_audioQ.GetDuration)) := by
  obtain ⟨htr, hgate, hunder, hrun⟩ := OnPlay_emitted notify clock s
  refine ⟨fun hb hv ha => hgate ⟨hb, hv, ha⟩, htr, ?_⟩
  intro hmem
  by_cases hg : gateClosed s
  · rw [hgate hg, emitted_self] at hmem
    simp at hmem
  · by_cases hn : (fillSlots s).m_video.frame = 0 ∧ (fillSlots s).m_audio.frame = 0
    · rw [(hunder hg hn).1] at hmem
      simp at hmem
    · obtain ⟨_, a, v, hem, ha, hv⟩ := hrun hg hn
      rw [hem] at hmem
      have hb : s.m_buffering = true := by
        by_contra hb
        rw [if_neg hb] at hmem
        simp only [List.nil_append, List.mem_append] at hmem
        rcases hmem with hmem | hmem
        · rcases ha with ha | ⟨d, _, ha, _⟩ <;> rw [ha] at hmem <;> simp at hmem
        · rcases hv with hv | ⟨d, _, hv, _⟩ <;> rw [hv] at hmem <;> simp at hmem
      refine ⟨hb, ?_⟩
      unfold gateClosed at hg
      by_contra hcon
      apply hg
      refine ⟨hb, ?_, ?_⟩ <;> omega

/-- Witness of C1 (amended): the freshly constructed engine, whose queues are empty. -/
theorem C1_buffering_gate_witness :
    OnPlay silentSink 7 (construct 0 0) = (20, construct 0 0) :=
  (C1_buffering_gate silentSink 7 (construct 0 0)).1 (by decide) (by decide) (by decide)

/-! ## C8, C9, C10: the video step -/

/-- C8: when `OnVideo(now)` runs with a non-stale pending frame that is due
(`now >= virtualElapsed + delta`, the sum taken as the code computes it), the
virtual clock becomes `virtualElapsed + delta`, or `now` if that is more than
100 behind `now`; `wallClockAtPresent = now`; `presentedTimestamp` is the
frame's timestamp; `on_video(payload, 0)` is the one sink call; the pending
slot is cleared; the result is 0; and afterwards `0 <= now - virtualElapsed <= 100`. -/
theorem C8_video_present (now : Nat) (s : AVPlayerCore) (hnow : now < 2 ^ 64)
    (hs : s.m_video.serial = s.m_videoQ.GetSerial)
    (hdue : u64add s.m_vclock.frame_time (videoDiff s) ≤ now) :
    OnVideo now s = (0, { s with
        m_vclock := { s.m_vclock with
          frame_time :=
            if now - u64add s.m_vclock.frame_time (videoDiff s) > 100 then now
            else u64add s.m_vclock.frame_time (videoDiff s)
          clock := now
          pts := s.m_video.pts }
        m_video := { s.m_video with frame := 0 }
        trace := s.trace ++ [SinkCall.on_video s.m_video.frame 0] })
    ∧ emitted s (OnVideo now s).2 = [SinkCall.on_video s.m_video.frame 0]
    ∧ (OnVideo now s).2.m_vclock.frame_time ≤ now
    ∧ now - (OnVideo now s).2.m_vclock.frame_time ≤ 100
    ∧ (s.m_vclock.frame_time + videoDiff s ≤ now →
        u64add s.m_vclock.frame_time (videoDiff s) = s.m_vclock.frame_time + videoDiff s) := by
  have hge : ¬ now < u64add s.m_vclock.frame_time (videoDiff s) := by omega
  have hsub : u64sub now (u64add s.m_vclock.frame_time (videoDiff s))
      = now - u64add s.m_vclock.frame_time (videoDiff s) :=
    u64sub_of_le hdue hnow
  have h := OnVideo_present now s hs hge
  rw [hsub] at h
  refine ⟨h, ?_, ?_, ?_, ?_⟩
  · apply emitted_of_append
    rw [h]
  · rw [h]
    dsimp only
    split <;> omega
  · rw [h]
    dsimp only
    split <;> omega
  · intro hle
    unfold u64add
    omega

/-- Witness of C8: a frame with timestamp 40 after a frame with timestamp 0,
virtual clock at 1000, stepped at 1040. -/
theorem C8_video_present_witness :
    (OnVideo 1040 (videoPending ⟨5, 40, 0, 0⟩ 1000)).2.m_vclock.frame_time ≤ 1040 :=
  (C8_video_present 1040 (videoPending ⟨5, 40, 0, 0⟩ 1000) (by decide) (by decide)
    (by decide)).2.2.1

/-- C9, as stated, fails: the result is the remaining wait cast to `int`. With
the virtual clock at `2^32`, a pending frame of delta 0 and `now = 0`, the
frame is not due (`now < virtualElapsed + delta`), the remaining wait is
`2^32`, and `OnVideo` returns 0, which is not strictly positive. -/
theorem C9_counterexample :
    (videoPending ⟨5, 0, 0, 0⟩ (2 ^ 32)).m_video.serial
        = (videoPending ⟨5, 0, 0, 0⟩ (2 ^ 32)).m_videoQ.GetSerial
    ∧ 0 < (videoPending ⟨5, 0, 0, 0⟩ (2 ^ 32)).m_vclock.frame_time
          + videoDiff (videoPending ⟨5, 0, 0, 0⟩ (2 ^ 32))
    ∧ (videoPending ⟨5, 0, 0, 0⟩ (2 ^ 32)).m_vclock.frame_time
          + videoDiff (videoPending ⟨5, 0, 0, 0⟩ (2 ^ 32)) - 0 = 2 ^ 32
    ∧ (OnVideo 0 (videoPending ⟨5, 0, 0, 0⟩ (2 ^ 32))).1 = 0 := by
  decide

/-- C9 (amended): when `OnVideo(now)` runs with a non-stale pending frame,
`now < virtualElapsed + delta`, the sum does not overflow 64 bits and the
remaining wait is below `2^31` (as it is whenever `virtualElapsed <= now`), it
returns exactly `(virtualElapsed + delta) - now`, a strictly positive value,
makes no sink call and leaves the whole state unchanged. -/
theorem C9_video_deferral (now : Nat) (s : AVPlayerCore)
    (hs : s.m_video.serial = s.m_videoQ.GetSerial)
    (hlt : now < s.m_vclock.frame_time + videoDiff s)
    (hno : s.m_vclock.frame_time + videoDiff s < 2 ^ 64)
    (hsmall : s.m_vclock.frame_time + videoDiff s - now < 2 ^ 31) :
    OnVideo now s = (((s.m_vclock.frame_time + videoDiff s - now : Nat) : Int), s)
    ∧ 0 < (OnVideo now s).1
    ∧ emitted s (OnVideo now s).2 = [] := by
  have hadd : u64add s.m_vclock.frame_time (videoDiff s)
      = s.m_vclock.frame_time + videoDiff s := by
    unfold u64add
    omega
  have h := OnVideo_defer now s hs (by rw [hadd]; exact hlt)
  have hret : toInt32 (u64sub (u64add s.m_vclock.frame_time (videoDiff s)) now)
      = ((s.m_vclock.frame_time + videoDiff s - now : Nat) : Int) := by
    rw [hadd]
    unfold toInt32 u64sub
    have h1 : (s.m_vclock.frame_time + videoDiff s + (2 ^ 64 - now % 2 ^ 64)) % 2 ^ 64
        = s.m_vclock.frame_time + videoDiff s - now := by omega
    rw [h1]
    have h2 : (s.m_vclock.frame_time + videoDiff s - now) % 2 ^ 32
        = s.m_vclock.frame_time + videoDiff s - now := by omega
    rw [h2, if_pos hsmall]
  rw [hret] at h
  refine ⟨h, ?_, ?_⟩
  · rw [h]
    dsimp only
    omega
  · rw [h]
    exact emitted_self s

/-- Witness of C9 (amended): virtual clock at 1000, delta 40, stepped at 1010. -/
theorem C9_video_deferral_witness :
    OnVideo 1010 (videoPending ⟨5, 40, 0, 0⟩ 1000)
      = (((1000 + 40 - 1010 : Nat) : Int), videoPending ⟨5, 40, 0, 0⟩ 1000) :=
  (C9_video_deferral 1010 (videoPending ⟨5, 40, 0, 0⟩ 1000) (by decide) (by decide)
    (by decide) (by decide)).1

/-- C10: the delta used by `OnVideo` is `frame.timestamp - presentedTimestamp`
computed modulo `2^64` when that value is at most 20000, and 40 otherwise; so it
is always at most 20000, and a frame whose timestamp is smaller than the last
presented timestamp (by at most `2^64 - 20001`) gets delta 40. The delta is the
one that schedules the frame: a non-stale frame is deferred exactly when
`now < virtualElapsed + delta`. -/
theorem C10_video_delta (s : AVPlayerCore) :
    ((videoDiff s : Nat) : Int)
        = (if ((s.m_video.pts : Int) - (s.m_vclock.pts : Int)) % 2 ^ 64 ≤ 20000
            then ((s.m_video.pts : Int) - (s.m_vclock.pts : Int)) % 2 ^ 64 else 40)
    ∧ videoDiff s ≤ 20000
    ∧ (s.m_vclock.pts < 2 ^ 64 → s.m_video.pts < s.m_vclock.pts →
        s.m_vclock.pts - s.m_video.pts ≤ 2 ^ 64 - 20001 → videoDiff s = 40)
    ∧ (∀ now, s.m_video.serial = s.m_videoQ.GetSerial →
        (emitted s (OnVideo now s).2 = []
          ↔ now < u64add s.m_vclock.frame_time (videoDiff s))) := by
  have hmod : ((u64sub s.m_video.pts s.m_vclock.pts : Nat) : Int)
      = ((s.m_video.pts : Int) - (s.m_vclock.pts : Int)) % 2 ^ 64 := by
    unfold u64sub
    omega
  refine ⟨?_, videoDiff_le s, ?_, ?_⟩
  · unfold videoDiff
    rw [← hmod]
    split <;> split <;> omega
  · intro h1 h2 h3
    unfold videoDiff u64sub
    split <;> omega
  · intro now hs
    by_cases hlt : now < u64add s.m_vclock.frame_time (videoDiff s)
    · rw [OnVideo_defer now s hs hlt]
      simp [emitted_self, hlt]
    · have h : (OnVideo now s).2.trace = s.trace ++ [SinkCall.on_video s.m_video.frame 0] := by
        rw [OnVideo_present now s hs hlt]
      rw [emitted_of_append h]
      simp [hlt]

/-- Witness of C10: timestamp 100 after presented timestamp 500. -/
theorem C10_video_delta_witness :
    videoDiff { videoPending ⟨5, 100, 0, 0⟩ 0 with
      m_vclock := { AVClock.zero with pts := 500 } } = 40 :=
  (C10_video_delta { videoPending ⟨5, 100, 0, 0⟩ 0 with
      m_vclock := { AVClock.zero with pts := 500 } }).2.2.1
    (by decide) (by decide) (by decide)

/-! ## C4: stale frames are discarded -/

/-- C4: when `OnVideo` (resp. `OnAudio`) runs with a pending frame whose serial
differs from the current serial of its queue, it calls the sink once with that
payload and discard=1, clears the pending slot, changes nothing else (in
particular neither clock) and returns 0; and no call with discard=0 is made,
by `OnVideo`, `OnAudio` or a whole `OnPlay` step, for a frame whose serial
differs from the current serial of its queue. -/
theorem C4_stale_discard (notify : AudioSink) (clock : Nat) (s : AVPlayerCore) :
    (s.m_video.serial ≠ s.m_videoQ.GetSerial →
      OnVideo clock s = (0, { s with
        trace := s.trace ++ [SinkCall.on_video s.m_video.frame 1]
        m_video := { s.m_video with frame := 0 } }))
    ∧ (s.m_audio.serial ≠ s.m_audioQ.GetSerial →
      OnAudio notify clock s = (0, { s with
        trace := s.trace ++ [SinkCall.on_audio s.m_audio.frame 1]
        m_audio := { s.m_audio with frame := 0 } }))
    ∧ (∀ p, SinkCall.on_video p 0 ∈ emitted s (OnVideo clock s).2 →
        p = s.m_video.frame ∧ s.m_video.serial = s.m_videoQ.GetSerial)
    ∧ (∀ p, SinkCall.on_audio p 0 ∈ emitted s (OnAudio notify clock s).2 →
        p = s.m_audio.frame ∧ s.m_audio.serial = s.m_audioQ.GetSerial)
    ∧ (∀ p, SinkCall.on_video p 0 ∈ emitted s (OnPlay notify clock s).2 →
        p = (fillSlots s).m_video.frame
        ∧ (fillSlots s).m_video.serial = s.m_videoQ.GetSerial)
    ∧ (∀ p, SinkCall.on_audio p 0 ∈ emitted s (OnPlay notify clock s).2 →
        p = (fillSlots s).m_audio.frame
        ∧ (fillSlots s).m_audio.serial = s.m_audioQ.GetSerial) := by
  refine ⟨OnVideo_stale clock s, OnAudio_stale notify clock s, ?_, ?_, ?_, ?_⟩
  · intro p hp
    rcases OnVideo_cases clock s with h | h | h
    · rw [h.1, emitted_self] at hp
      simp at hp
    · rw [emitted_of_append h.2.1] at hp
      simp at hp
    · rw [emitted_of_append h.2.1] at hp
      simp at hp
      exact ⟨hp, h.2.2.2.1⟩
  · intro p hp
    rcases OnAudio_cases notify clock s with h | h | h
    · rw [h.2.1, emitted_self] at hp
      simp at hp
    · rw [emitted_of_append h.2.1] at hp
      simp at hp
    · rw [emitted_of_append h.2.1] at hp
      simp at hp
      exact ⟨hp, h.2.2.2.2⟩
  · intro p hp
    obtain ⟨_, hgate, hunder, hrun⟩ := OnPlay_emitted notify clock s
    by_cases hg : gateClosed s
    · rw [hgate hg, emitted_self] at hp
      simp at hp
    · by_cases hn : (fillSlots s).m_video.frame = 0 ∧ (fillSlots s).m_audio.frame = 0
      · rw [(hunder hg hn).1] at hp
        simp at hp
      · obtain ⟨_, a, v, hem, ha, hv⟩ := hrun hg hn
        rw [hem] at hp
        simp only [List.mem_append] at hp
        rcases hp with (hp | hp) | hp
        · split at hp <;> simp at hp
        · rcases ha with ha | ⟨d, _, ha, _⟩ <;> rw [ha] at hp <;> simp at hp
        · rcases hv with hv | ⟨d, _, hv, _, hiff⟩ <;> rw [hv] at hp <;> simp at hp
          exact ⟨hp.1, hiff.mp hp.2.symm⟩
  · intro p hp
    obtain ⟨_, hgate, hunder, hrun⟩ := OnPlay_emitted notify clock s
    by_cases hg : gateClosed s
    · rw [hgate hg, emitted_self] at hp
      simp at hp
    · by_cases hn : (fillSlots s).m_video.frame = 0 ∧ (fillSlots s).m_audio.frame = 0
      · rw [(hunder hg hn).1] at hp
        simp at hp
      · obtain ⟨_, a, v, hem, ha, hv⟩ := hrun hg hn
        rw [hem] at hp
        simp only [List.mem_append] at hp
        rcases hp with (hp | hp) | hp
        · split at hp <;> simp at hp
        · rcases ha with ha | ⟨d, _, ha, _, hiff⟩ <;> rw [ha] at hp <;> simp at hp
          exact ⟨hp.1, hiff.mp hp.2.symm⟩
        · rcases hv with hv | ⟨d, _, hv, _⟩ <;> rw [hv] at hp <;> simp at hp

/-- Witness of C4: a pending video frame of serial 7 while the queue's serial is 0. -/
theorem C4_stale_discard_witness :
    OnVideo 50 (videoPending ⟨5, 40, 0, 7⟩ 0)
      = (0, { videoPending ⟨5, 40, 0, 7⟩ 0 with
          trace := [SinkCall.on_video 5 1]
          m_video := ⟨0, 40, 0, 7⟩ }) :=
  (C4_stale_discard silentSink 50 (videoPending ⟨5, 40, 0, 7⟩ 0)).1 (by decide)

/-! ## C7: bounds of the wait hint -/

lemma defer_wait_bounds {ft d c : Nat} (hft : ft ≤ c) (hc : c < 2 ^ 64) (hd : d ≤ 20000)
    (hlt : c < u64add ft d) :
    0 < toInt32 (u64sub (u64add ft d) c) ∧ toInt32 (u64sub (u64add ft d) c) ≤ 20000 := by
  unfold toInt32 u64sub
  unfold u64add at hlt ⊢
  split <;> omega

lemma v_min_le_right (x y : Int) : v_min x y ≤ y := by
  unfold v_min
  split <;> omega

lemma v_min_nonneg {x y : Int} (hx : 0 ≤ x) (hy : 0 ≤ y) : 0 ≤ v_min x y := by
  unfold v_min
  split <;> omega

/-- C7, as stated, fails: with the video virtual clock at `2^31 + 100`, a
pending frame of delta 0 and the wall clock at 100, `OnVideo` returns the
remaining wait `2^31` cast to `int`, and `OnPlay` returns `-2147483648`. -/
theorem C7_counterexample :
    (OnPlay silentSink 100 (videoPending ⟨5, 0, 0, 0⟩ (2 ^ 31 + 100))).1 = -2147483648
    ∧ ¬ (0 ≤ (OnPlay silentSink 100 (videoPending ⟨5, 0, 0, 0⟩ (2 ^ 31 + 100))).1) := by
  decide

/-- C7 (amended): for every engine state and clock value `now` with
`videoClock.virtualElapsed <= now`, the value `r` returned by `OnPlay` satisfies
`0 <= r <= 20`. -/
theorem C7_wait_bounds (notify : AudioSink) (now : Nat) (s : AVPlayerCore)
    (hnow : now < 2 ^ 64) (hft : s.m_vclock.frame_time ≤ now) :
    0 ≤ (OnPlay notify now s).1 ∧ (OnPlay notify now s).1 ≤ 20 := by
  rw [OnPlay_eq]
  split
  · show (0 : Int) ≤ TIMEOUT_DEFAULT ∧ TIMEOUT_DEFAULT ≤ 20
    exact ⟨by decide, by decide⟩
  · split
    · show (0 : Int) ≤ TIMEOUT_DEFAULT ∧ TIMEOUT_DEFAULT ≤ 20
      exact ⟨by decide, by decide⟩
    · have hcb := clearBuffering_frame (fillSlots s)
      have hfill := fillSlots_frame s
      obtain ⟨_, hat, har⟩ := playAudio_cases notify now (clearBuffering (fillSlots s))
      obtain ⟨_, hv⟩ := playVideo_cases now (playAudio notify now (clearBuffering (fillSlots s))).1
        (playAudio notify now (clearBuffering (fillSlots s))).2
      have hft2 : (playAudio notify now (clearBuffering (fillSlots s))).2.m_vclock.frame_time
          ≤ now := by
        rcases hat with h | h
        · rw [h, hcb.2.2.2.2.2.1, hfill.2.2.1]; exact hft
        · rw [h]
      have ht : 0 ≤ (playAudio notify now (clearBuffering (fillSlots s))).1
          ∧ (playAudio notify now (clearBuffering (fillSlots s))).1 ≤ 20 := by
        rcases har with h | ⟨d, _, h, _⟩
        · rw [h.1]; exact ⟨by decide, by decide⟩
        · rw [h]; exact ⟨by decide, by decide⟩
      rcases hv with ⟨_, h | h⟩ | ⟨d, _, h, _⟩
      · rw [h.1]; exact ht
      · rw [h.1]
        have hb := defer_wait_bounds hft2 hnow (videoDiff_le _) h.2.2.2
        exact ⟨v_min_nonneg (le_of_lt hb.1) ht.1, le_trans (v_min_le_right _ _) ht.2⟩
      · rw [h]
        exact ⟨v_min_nonneg (le_refl 0) ht.1, le_trans (v_min_le_right _ _) ht.2⟩

/-- Witness of C7 (amended): three queued video frames, stepped at 1000. -/
theorem C7_wait_bounds_witness :
    0 ≤ (OnPlay silentSink 1000 threeVideoFrames).1
    ∧ (OnPlay silentSink 1000 threeVideoFrames).1 ≤ 20 :=
  C7_wait_bounds silentSink 1000 threeVideoFrames (by decide) (by decide)

/-! ## C6: teardown -/

lemma drainVideoQ_spec (l : List AVFrame) :
    ∀ (fuel : Nat) (s : AVPlayerCore), s.m_videoQ.frames = l → l.length < fuel →
      (drainVideoQ fuel s).trace = s.trace ++ l.map (fun f => SinkCall.on_video f.frame 1)
      ∧ (drainVideoQ fuel s).m_videoQ.frames = []
      ∧ (drainVideoQ fuel s).m_audioQ = s.m_audioQ
      ∧ (drainVideoQ fuel s).m_audio = s.m_audio
      ∧ (drainVideoQ fuel s).qreads = s.qreads + l.length + 1 := by
  induction l with
  | nil =>
    intro fuel s hl hf
    obtain ⟨k, rfl⟩ : ∃ k, fuel = k + 1 := ⟨fuel - 1, by simp at hf; omega⟩
    simp [drainVideoQ, AVFrameQueue.Read, hl]
  | cons f rest ih =>
    intro fuel s hl hf
    obtain ⟨k, rfl⟩ : ∃ k, fuel = k + 1 := ⟨fuel - 1, by simp at hf; omega⟩
    simp only [drainVideoQ, AVFrameQueue.Read, hl]
    have h := ih k { s with
      m_video := f, m_videoQ := { s.m_videoQ with frames := rest }, qreads := s.qreads + 1
      trace := s.trace ++ [SinkCall.on_video f.frame 1] } rfl (by simp at hf; omega)
    obtain ⟨h1, h2, h3, h4, h5⟩ := h
    refine ⟨?_, h2, h3, h4, ?_⟩
    · rw [h1]; simp
    · rw [h5]; simp; omega

lemma drainAudioQ_spec (l : List AVFrame) :
    ∀ (fuel : Nat) (s : AVPlayerCore), s.m_audioQ.frames = l → l.length < fuel →
      (drainAudioQ fuel s).trace = s.trace ++ l.map (fun f => SinkCall.on_audio f.frame 1)
      ∧ (drainAudioQ fuel s).m_audioQ.frames = []
      ∧ (drainAudioQ fuel s).m_videoQ = s.m_videoQ
      ∧ (drainAudioQ fuel s).qreads = s.qreads + l.length + 1 := by
  induction l with
  | nil =>
    intro fuel s hl hf
    obtain ⟨k, rfl⟩ : ∃ k, fuel = k + 1 := ⟨fuel - 1, by simp at hf; omega⟩
    simp [drainAudioQ, AVFrameQueue.Read, hl]
  | cons f rest ih =>
    intro fuel s hl hf
    obtain ⟨k, rfl⟩ : ∃ k, fuel = k + 1 := ⟨fuel - 1, by simp at hf; omega⟩
    simp only [drainAudioQ, AVFrameQueue.Read, hl]
    have h := ih k { s with
      m_audio := f, m_audioQ := { s.m_audioQ with frames := rest }, qreads := s.qreads + 1
      trace := s.trace ++ [SinkCall.on_audio f.frame 1] } rfl (by simp at hf; omega)
    obtain ⟨h1, h2, h3, h5⟩ := h
    refine ⟨?_, h2, h3, ?_⟩
    · rw [h1]; simp
    · rw [h5]; simp; omega

lemma drainVideoQ_fuel (l : List AVFrame) :
    ∀ (f1 f2 : Nat) (s : AVPlayerCore), s.m_videoQ.frames = l → l.length < f1 →
      l.length < f2 → drainVideoQ f1 s = drainVideoQ f2 s := by
  induction l with
  | nil =>
    intro f1 f2 s hl h1 h2
    obtain ⟨k1, rfl⟩ : ∃ k, f1 = k + 1 := ⟨f1 - 1, by simp at h1; omega⟩
    obtain ⟨k2, rfl⟩ : ∃ k, f2 = k + 1 := ⟨f2 - 1, by simp at h2; omega⟩
    simp [drainVideoQ, AVFrameQueue.Read, hl]
  | cons f rest ih =>
    intro f1 f2 s hl h1 h2
    obtain ⟨k1, rfl⟩ : ∃ k, f1 = k + 1 := ⟨f1 - 1, by simp at h1; omega⟩
    obtain ⟨k2, rfl⟩ : ∃ k, f2 = k + 1 := ⟨f2 - 1, by simp at h2; omega⟩
    simp only [drainVideoQ, AVFrameQueue.Read, hl]
    exact ih k1 k2 _ rfl (by simp at h1; omega) (by simp at h2; omega)

lemma drainAudioQ_fuel (l : List AVFrame) :
    ∀ (f1 f2 : Nat) (s : AVPlayerCore), s.m_audioQ.frames = l → l.length < f1 →
      l.length < f2 → drainAudioQ f1 s = drainAudioQ f2 s := by
  induction l with
  | nil =>
    intro f1 f2 s hl h1 h2
    obtain ⟨k1, rfl⟩ : ∃ k, f1 = k + 1 := ⟨f1 - 1, by simp at h1; omega⟩
    obtain ⟨k2, rfl⟩ : ∃ k, f2 = k + 1 := ⟨f2 - 1, by simp at h2; omega⟩
    simp [drainAudioQ, AVFrameQueue.Read, hl]
  | cons f rest ih =>
    intro f1 f2 s hl h1 h2
    obtain ⟨k1, rfl⟩ : ∃ k, f1 = k + 1 := ⟨f1 - 1, by simp at h1; omega⟩
    obtain ⟨k2, rfl⟩ : ∃ k, f2 = k + 1 := ⟨f2 - 1, by simp at h2; omega⟩
    simp only [drainAudioQ, AVFrameQueue.Read, hl]
    exact ih k1 k2 _ rfl (by simp at h1; omega) (by simp at h2; omega)

/-- The state of the destructor before its two loops. -/
lemma destructWith_eq (fv fa : Nat) (s : AVPlayerCore) :
    destructWith fv fa s
      = drainAudioQ fa (drainVideoQ fv { s with trace := s.trace ++ pendingDiscards s }) := by
  unfold destructWith pendingDiscards
  by_cases hv : s.m_video.frame = 0 <;> by_cases ha : s.m_audio.frame = 0 <;> simp [hv, ha]

lemma countP_map_video (l : List AVFrame) :
    (l.map (fun f => SinkCall.on_video f.frame 1)).countP SinkCall.isVideo = l.length
    ∧ (l.map (fun f => SinkCall.on_video f.frame 1)).countP SinkCall.isAudio = 0 := by
  induction l with
  | nil => simp
  | cons f rest ih => simp [List.countP_cons, SinkCall.isVideo, SinkCall.isAudio, ih]

lemma countP_map_audio (l : List AVFrame) :
    (l.map (fun f => SinkCall.on_audio f.frame 1)).countP SinkCall.isAudio = l.length
    ∧ (l.map (fun f => SinkCall.on_audio f.frame 1)).countP SinkCall.isVideo = 0 := by
  induction l with
  | nil => simp
  | cons f rest ih => simp [List.countP_cons, SinkCall.isVideo, SinkCall.isAudio, ih]

/-- C6: for every engine state, the destructor's drain terminates (any fuel
above the queue lengths gives the same final state) and calls the sink with the
pending video frame (if any), the pending audio frame (if any), the queued
video frames in FIFO order and the queued audio frames in FIFO order, all with
discard=1: `N` (+1 if a video frame is pending) calls of `on_video` and `M`
(+1 if an audio frame is pending) calls of `on_audio`; both queues end empty. -/
theorem C6_teardown (s : AVPlayerCore) :
    (∀ fv fa, s.m_videoQ.Size < fv → s.m_audioQ.Size < fa →
        destructWith fv fa s = destruct s)
    ∧ (destruct s).trace = s.trace ++ emitted s (destruct s)
    ∧ emitted s (destruct s)
        = (if s.m_video.frame ≠ 0 then [SinkCall.on_video s.m_video.frame 1] else [])
          ++ (if s.m_audio.frame ≠ 0 then [SinkCall.on_audio s.m_audio.frame 1] else [])
          ++ s.m_videoQ.frames.map (fun f => SinkCall.on_video f.frame 1)
          ++ s.m_audioQ.frames.map (fun f => SinkCall.on_audio f.frame 1)
    ∧ (emitted s (destruct s)).countP SinkCall.isVideo
        = s.m_videoQ.Size + (if s.m_video.frame ≠ 0 then 1 else 0)
    ∧ (emitted s (destruct s)).countP SinkCall.isAudio
        = s.m_audioQ.Size + (if s.m_audio.frame ≠ 0 then 1 else 0)
    ∧ (∀ c ∈ emitted s (destruct s),
        (∃ p, c = SinkCall.on_video p 1) ∨ (∃ p, c = SinkCall.on_audio p 1))
    ∧ (destruct s).m_videoQ.frames = [] ∧ (destruct s).m_audioQ.frames = [] := by
  have hv := drainVideoQ_spec s.m_videoQ.frames (s.m_videoQ.Size + 1)
    { s with trace := s.trace ++ pendingDiscards s } rfl (by simp [AVFrameQueue.Size])
  obtain ⟨hv1, hv2, hv3, _, _⟩ := hv
  have ha := drainAudioQ_spec s.m_audioQ.frames (s.m_audioQ.Size + 1)
    (drainVideoQ (s.m_videoQ.Size + 1) { s with trace := s.trace ++ pendingDiscards s })
    (by rw [hv3]) (by simp [AVFrameQueue.Size])
  obtain ⟨ha1, ha2, ha3, _⟩ := ha
  have htr : (destruct s).trace = s.trace ++ (pendingDiscards s
      ++ s.m_videoQ.frames.map (fun f => SinkCall.on_video f.frame 1)
      ++ s.m_audioQ.frames.map (fun f => SinkCall.on_audio f.frame 1)) := by
    unfold destruct
    rw [destructWith_eq, ha1, hv1]
    simp
  have hem := emitted_of_append htr
  refine ⟨?_, ?_, ?_, ?_, ?_, ?_, ?_, ?_⟩
  · intro fv fa hfv hfa
    unfold destruct
    rw [destructWith_eq, destructWith_eq]
    rw [drainVideoQ_fuel s.m_videoQ.frames fv (s.m_videoQ.Size + 1)
      { s with trace := s.trace ++ pendingDiscards s } rfl hfv (by simp [AVFrameQueue.Size])]
    exact drainAudioQ_fuel s.m_audioQ.frames fa (s.m_audioQ.Size + 1)
      (drainVideoQ (s.m_videoQ.Size + 1) { s with trace := s.trace ++ pendingDiscards s })
      (by rw [hv3]) hfa (by simp [AVFrameQueue.Size])
  · rw [hem, htr]
  · rw [hem]; rfl
  · rw [hem]
    unfold pendingDiscards AVFrameQueue.Size
    simp only [List.countP_append, (countP_map_video _).1, (countP_map_audio _).2]
    by_cases h1 : s.m_video.frame = 0 <;> by_cases h2 : s.m_audio.frame = 0 <;>
      simp [h1, h2, SinkCall.isVideo] <;> omega
  · rw [hem]
    unfold pendingDiscards AVFrameQueue.Size
    simp only [List.countP_append, (countP_map_video _).2, (countP_map_audio _).1]
    by_cases h1 : s.m_video.frame = 0 <;> by_cases h2 : s.m_audio.frame = 0 <;>
      simp [h1, h2, SinkCall.isAudio] <;> omega
  · intro c hc
    rw [hem] at hc
    unfold pendingDiscards at hc
    simp only [List.mem_append, List.mem_map] at hc
    rcases hc with ((hc | hc) | ⟨f, _, hc⟩) | ⟨f, _, hc⟩
    · split at hc <;> simp at hc
      exact Or.inl ⟨_, hc⟩
    · split at hc <;> simp at hc
      exact Or.inr ⟨_, hc⟩
    · exact Or.inl ⟨_, hc.symm⟩
    · exact Or.inr ⟨_, hc.symm⟩
  · unfold destruct
    rw [destructWith_eq, ha3]
    exact hv2
  · unfold destruct
    rw [destructWith_eq]
    exact ha2

/-- Witness of C6: three queued video frames, drained with fuel 10. -/
theorem C6_teardown_witness :
    destructWith 10 10 threeVideoFrames = destruct threeVideoFrames :=
  (C6_teardown threeVideoFrames).1 10 10 (by decide) (by decide)

/-! ## C2: buffering notification and the first frame -/

/-- C2, as stated, fails: the constructor sets the buffering flag without a
notification, so after `Play`, three video writes and one step, the sink has
received `on_buffering(0)` and `on_video`, and no `on_buffering(1)`. -/
theorem C2_counterexample :
    (run silentSink [Action.play, Action.inputVideo 1 0 0, Action.inputVideo 2 40 0,
        Action.inputVideo 3 80 0, Action.onPlay 1000] (construct 0 0)).trace
      = [SinkCall.on_buffering 0, SinkCall.on_video 1 0]
    ∧ bufferingBeforeFrames 1
        (run silentSink [Action.play, Action.inputVideo 1 0 0, Action.inputVideo 2 40 0,
          Action.inputVideo 3 80 0, Action.onPlay 1000] (construct 0 0)).trace = false := by
  decide

lemma bufferingBeforeFrames_of_underrun (tr : List SinkCall)
    (h : ∀ c ∈ tr, c = SinkCall.on_buffering 1) : bufferingBeforeFrames 0 tr = true := by
  induction tr with
  | nil => rfl
  | cons c rest ih =>
    have hc := h c (List.mem_cons_self _ _)
    subst hc
    simp only [bufferingBeforeFrames]
    rw [if_neg (by decide)]
    exact ih (fun c hc => h c (List.mem_cons_of_mem _ hc))

lemma bufferingBeforeFrames_of_cleared (pre post : List SinkCall)
    (h : ∀ c ∈ pre, c = SinkCall.on_buffering 1) :
    bufferingBeforeFrames 0 (pre ++ SinkCall.on_buffering 0 :: post) = true := by
  induction pre with
  | nil => simp [bufferingBeforeFrames]
  | cons c rest ih =>
    have hc := h c (List.mem_cons_self _ _)
    subst hc
    simp only [List.cons_append, bufferingBeforeFrames]
    rw [if_neg (by decide)]
    exact ih (fun c hc => h c (List.mem_cons_of_mem _ hc))

lemma startInv_append {s t : AVPlayerCore} {l : List SinkCall}
    (h : ∃ pre post, s.trace = pre ++ SinkCall.on_buffering 0 :: post
      ∧ ∀ c ∈ pre, c = SinkCall.on_buffering 1)
    (ht : t.trace = s.trace ++ l) : startInv t := by
  obtain ⟨pre, post, hs, hpre⟩ := h
  exact Or.inr ⟨pre, post ++ l, by rw [ht, hs]; simp, hpre⟩

lemma startInv_OnPlay (n : AudioSink) (c : Nat) (s : AVPlayerCore) (h : startInv s) :
    startInv (OnPlay n c s).2 := by
  obtain ⟨htr, hgate, hunder, hrun⟩ := OnPlay_emitted n c s
  rcases h with ⟨hb, hall⟩ | h
  · by_cases hg : gateClosed s
    · rw [hgate hg]
      exact Or.inl ⟨hb, hall⟩
    · by_cases hn : (fillSlots s).m_video.frame = 0 ∧ (fillSlots s).m_audio.frame = 0
      · obtain ⟨hem, _, hb2⟩ := hunder hg hn
        refine Or.inl ⟨hb2, ?_⟩
        rw [htr, hem]
        intro x hx
        rcases List.mem_append.mp hx with hx | hx
        · exact hall x hx
        · simpa using hx
      · obtain ⟨_, a, v, hem, _, _⟩ := hrun hg hn
        rw [if_pos hb] at hem
        refine Or.inr ⟨s.trace, a ++ v, ?_, hall⟩
        rw [htr, hem]
        simp
  · exact startInv_append h htr

lemma startInv_step (n : AudioSink) (a : Action) (s : AVPlayerCore) (h : startInv s) :
    startInv (step n a s) := by
  cases a with
  | onPlay c => exact startInv_OnPlay n c s h
  | play => exact h
  | pause => exact h
  | stop => exact h
  | inputVideo yuv pts serial => exact h
  | inputAudio pcm pts duration serial => exact h

lemma startInv_run (n : AudioSink) (acts : List Action) :
    ∀ s, startInv s → startInv (run n acts s) := by
  induction acts with
  | nil => intro s h; exact h
  | cons a rest ih => intro s h; exact ih _ (startInv_step n a s h)

/-- C2 (amended): starting from a freshly constructed engine with empty queues,
for every sequence of transport commands, frame writes and `OnPlay` steps, the
trace of sink calls contains an `on_buffering(false)` call before the first
`on_video` or `on_audio` call. -/
theorem C2_buffering_before_frames (notify : AudioSink) (vserial aserial : Int)
    (acts : List Action) :
    bufferingBeforeFrames 0 (run notify acts (construct vserial aserial)).trace = true := by
  have h0 : startInv (construct vserial aserial) :=
    Or.inl ⟨rfl, fun c hc => by simp [construct] at hc⟩
  rcases startInv_run notify acts _ h0 with ⟨_, hall⟩ | ⟨pre, post, htr, hpre⟩
  · exact bufferingBeforeFrames_of_underrun _ hall
  · rw [htr]
    exact bufferingBeforeFrames_of_cleared pre post hpre

/-! ## C5: FIFO delivery of video frames -/

lemma fillSlots_video_eq (s : AVPlayerCore) :
    (fillSlots s).m_video = (if s.m_video.frame = 0 then readVideo s else s).m_video
    ∧ (fillSlots s).m_videoQ = (if s.m_video.frame = 0 then readVideo s else s).m_videoQ := by
  unfold fillSlots
  generalize (if s.m_video.frame = 0 then readVideo s else s) = s1
  dsimp only
  by_cases h : s1.m_audio.frame = 0
  · rw [if_pos h]
    exact ⟨(readAudio_frame s1).2.2.2.2.1, (readAudio_frame s1).2.2.2.2.2.1⟩
  · rw [if_neg h]
    exact ⟨rfl, rfl⟩

lemma fillSlots_head (s : AVPlayerCore) (f : AVFrame) (rest : List AVFrame)
    (h : pendingVideo s ++ s.m_videoQ.frames = f :: rest) :
    (fillSlots s).m_video = f ∧ (fillSlots s).m_videoQ.frames = rest := by
  have hv : (if s.m_video.frame = 0 then readVideo s else s).m_video = f
      ∧ (if s.m_video.frame = 0 then readVideo s else s).m_videoQ.frames = rest := by
    unfold pendingVideo at h
    by_cases h0 : s.m_video.frame = 0
    · rw [if_pos h0] at h
      rw [if_pos h0]
      simp only [List.nil_append] at h
      simp [readVideo, AVFrameQueue.Read, h]
    · rw [if_neg h0] at h
      rw [if_neg h0]
      simp only [List.singleton_append, List.cons.injEq] at h
      exact h
  rw [(fillSlots_video_eq s).1, (fillSlots_video_eq s).2]
  exact hv

lemma fillSlots_nil (s : AVPlayerCore)
    (h : pendingVideo s ++ s.m_videoQ.frames = []) :
    (fillSlots s).m_video.frame = 0 ∧ (fillSlots s).m_videoQ.frames = [] := by
  have hv : (if s.m_video.frame = 0 then readVideo s else s).m_video.frame = 0
      ∧ (if s.m_video.frame = 0 then readVideo s else s).m_videoQ.frames = [] := by
    unfold pendingVideo at h
    by_cases h0 : s.m_video.frame = 0
    · rw [if_pos h0] at h
      rw [if_pos h0]
      simp only [List.nil_append] at h
      simp [readVideo, AVFrameQueue.Read, h, h0]
    · rw [if_neg h0] at h
      simp at h
  rw [(fillSlots_video_eq s).1, (fillSlots_video_eq s).2]
  exact hv

lemma videoCalls_append (a b : List SinkCall) :
    videoCalls (a ++ b) = videoCalls a ++ videoCalls b := by
  unfold videoCalls
  exact List.filter_append a b

/-- The video calls up to the video part of a step are those of the start. -/
lemma playAudio_videoCalls (n : AudioSink) (c : Nat) (s : AVPlayerCore) :
    videoCalls (playAudio n c (clearBuffering (fillSlots s))).2.trace = videoCalls s.trace := by
  obtain ⟨_, _, ha⟩ := playAudio_cases n c (clearBuffering (fillSlots s))
  have hct := clearBuffering_trace (fillSlots s)
  rw [(fillSlots_frame s).1] at hct
  have hc : videoCalls (clearBuffering (fillSlots s)).trace = videoCalls s.trace := by
    rw [hct, videoCalls_append]
    split <;> simp [videoCalls, SinkCall.isVideo]
  rcases ha with ha | ⟨d, _, _, htr, _⟩
  · rw [ha.2, hc]
  · rw [htr, videoCalls_append, hc]
    simp [videoCalls, SinkCall.isVideo]

/-- The effect of one step on the video stream, when no queued payload is `NULL`:
either nothing is delivered and the frames pending and queued are the same, or
the first of them is delivered and the others remain. -/
lemma OnPlay_video (n : AudioSink) (c : Nat) (s : AVPlayerCore) (W : List AVFrame)
    (hW : pendingVideo s ++ s.m_videoQ.frames = W) (hne : ∀ f ∈ W, f.frame ≠ 0) :
    (OnPlay n c s).2.m_videoQ.serial = s.m_videoQ.serial
    ∧ ((videoCalls (OnPlay n c s).2.trace = videoCalls s.trace
        ∧ pendingVideo (OnPlay n c s).2 ++ (OnPlay n c s).2.m_videoQ.frames = W)
      ∨ ∃ f rest d, W = f :: rest
        ∧ videoCalls (OnPlay n c s).2.trace
            = videoCalls s.trace ++ [SinkCall.on_video f.frame d]
        ∧ (d = 0 ↔ f.serial = s.m_videoQ.serial)
        ∧ pendingVideo (OnPlay n c s).2 ++ (OnPlay n c s).2.m_videoQ.frames = rest) := by
  have hfill := fillSlots_frame s
  have hcb := clearBuffering_frame (fillSlots s)
  obtain ⟨ha1, _, _⟩ := playAudio_cases n c (clearBuffering (fillSlots s))
  obtain ⟨hv1, hv2⟩ := playVideo_cases c (playAudio n c (clearBuffering (fillSlots s))).1
    (playAudio n c (clearBuffering (fillSlots s))).2
  have hac := playAudio_videoCalls n c s
  rw [OnPlay_eq]
  by_cases hg : gateClosed s
  · rw [if_pos hg]
    exact ⟨rfl, Or.inl ⟨rfl, hW⟩⟩
  · rw [if_neg hg]
    have hAv : (playAudio n c (clearBuffering (fillSlots s))).2.m_video
        = (fillSlots s).m_video := by rw [ha1.1, hcb.2.1]
    have hAq : (playAudio n c (clearBuffering (fillSlots s))).2.m_videoQ
        = (fillSlots s).m_videoQ := by rw [ha1.2.1, hcb.2.2.2.1]
    cases W with
    | nil =>
      obtain ⟨hf0, hq0⟩ := fillSlots_nil s hW
      by_cases hn : (fillSlots s).m_video.frame = 0 ∧ (fillSlots s).m_audio.frame = 0
      · rw [if_pos hn]
        refine ⟨hfill.2.2.2.2.1, Or.inl ⟨?_, ?_⟩⟩
        · dsimp only
          rw [hfill.1, videoCalls_append]
          simp [videoCalls, SinkCall.isVideo]
        · simp [pendingVideo, hf0, hq0]
      · rw [if_neg hn]
        have hpv : playVideo c (playAudio n c (clearBuffering (fillSlots s))).1
            (playAudio n c (clearBuffering (fillSlots s))).2
              = ((playAudio n c (clearBuffering (fillSlots s))).1,
                (playAudio n c (clearBuffering (fillSlots s))).2) := by
          unfold playVideo
          rw [if_neg (by rw [hAv, hf0]; simp)]
        rw [hpv]
        refine ⟨by rw [hAq]; exact hfill.2.2.2.2.1, Or.inl ⟨hac, ?_⟩⟩
        simp [pendingVideo, hAv, hAq, hf0, hq0]
    | cons f rest =>
      have hfne : f.frame ≠ 0 := hne f (List.mem_cons_self _ _)
      obtain ⟨hFv, hFq⟩ := fillSlots_head s f rest hW
      have hn : ¬ ((fillSlots s).m_video.frame = 0 ∧ (fillSlots s).m_audio.frame = 0) := by
        rw [hFv]; exact fun h => hfne h.1
      rw [if_neg hn]
      refine ⟨by rw [hv1.2.1, hAq]; exact hfill.2.2.2.2.1, ?_⟩
      rcases hv2 with ⟨hsame, _⟩ | ⟨d, _, _, htr, _, hz, hiff⟩
      · left
        rw [hsame]
        refine ⟨hac, ?_⟩
        simp [pendingVideo, hAv, hAq, hFv, hFq, hfne]
      · right
        refine ⟨f, rest, d, rfl, ?_, ?_, ?_⟩
        · rw [htr, videoCalls_append, hac, hAv, hFv]
          simp [videoCalls, SinkCall.isVideo]
        · rw [hAv, hAq, hFv] at hiff
          unfold AVFrameQueue.GetSerial at hiff
          rw [hfill.2.2.2.2.1] at hiff
          exact hiff
        · rw [show pendingVideo _ = [] from by unfold pendingVideo; rw [if_pos hz]]
          rw [hv1.2.1, hAq, hFq]
          rfl

lemma videoInputs_cons (a : Action) (rest : List Action) :
    videoInputs (a :: rest) = videoInputs [a] ++ videoInputs rest := by
  cases a <;> simp [videoInputs]

lemma fifoInv_step (n : AudioSink) (vs : Int) (a : Action) (W : List AVFrame)
    (s : AVPlayerCore) (hW : ∀ f ∈ W, f.frame ≠ 0 ∧ f.serial = vs)
    (ha : ∀ f ∈ videoInputs [a], f.frame ≠ 0 ∧ f.serial = vs) (h : fifoInv vs W s) :
    fifoInv vs (W ++ videoInputs [a]) (step n a s) := by
  obtain ⟨hser, D, hD, htr⟩ := h
  cases a with
  | play => exact ⟨hser, D, by simpa [videoInputs] using hD, htr⟩
  | pause => exact ⟨hser, D, by simpa [videoInputs] using hD, htr⟩
  | stop => exact ⟨hser, D, by simpa [videoInputs] using hD, htr⟩
  | inputAudio pcm pts duration serial =>
    exact ⟨hser, D, by simpa [videoInputs] using hD, htr⟩
  | inputVideo yuv pts serial =>
    refine ⟨hser, D, ?_, htr⟩
    simp only [videoInputs, step, InputVideo, AVFrameQueue.Write, pendingVideo]
    simp only [pendingVideo] at hD
    rw [hD]
    simp
  | onPlay c =>
    have hne : ∀ f ∈ pendingVideo s ++ s.m_videoQ.frames, f.frame ≠ 0 := by
      intro f hf
      exact (hW f (by rw [hD]; exact List.mem_append_right _ hf)).1
    obtain ⟨hs2, hcase⟩ := OnPlay_video n c s _ rfl hne
    simp only [videoInputs, List.append_nil, step]
    refine ⟨by rw [hs2]; exact hser, ?_⟩
    rcases hcase with ⟨h1, h2⟩ | ⟨f, rest, d, hfr, h1, hiff, h2⟩
    · exact ⟨D, by rw [h2]; exact hD, by rw [h1]; exact htr⟩
    · refine ⟨D ++ [f], ?_, ?_⟩
      · rw [h2, hD, hfr]; simp
      · have hfs : f.serial = s.m_videoQ.serial := by
          rw [hser]
          exact (hW f (by rw [hD, hfr]; simp)).2
        rw [h1, htr, hiff.mpr hfs]
        simp

lemma fifoInv_run (n : AudioSink) (vs : Int) (acts : List Action) :
    ∀ (W : List AVFrame) (s : AVPlayerCore), (∀ f ∈ W, f.frame ≠ 0 ∧ f.serial = vs) →
      (∀ f ∈ videoInputs acts, f.frame ≠ 0 ∧ f.serial = vs) → fifoInv vs W s →
      fifoInv vs (W ++ videoInputs acts) (run n acts s) := by
  induction acts with
  | nil => intro W s _ _ h; simpa [videoInputs, run] using h
  | cons a rest ih =>
    intro W s hW hacts h
    rw [videoInputs_cons] at hacts
    have ha : ∀ f ∈ videoInputs [a], f.frame ≠ 0 ∧ f.serial = vs :=
      fun f hf => hacts f (List.mem_append_left _ hf)
    have hrest : ∀ f ∈ videoInputs rest, f.frame ≠ 0 ∧ f.serial = vs :=
      fun f hf => hacts f (List.mem_append_right _ hf)
    have h1 := fifoInv_step n vs a W s hW ha h
    have hW1 : ∀ f ∈ W ++ videoInputs [a], f.frame ≠ 0 ∧ f.serial = vs := by
      intro f hf
      rcases List.mem_append.mp hf with hf | hf
      · exact hW f hf
      · exact ha f hf
    have h2 := ih (W ++ videoInputs [a]) (step n a s) hW1 hrest h1
    rw [videoInputs_cons, ← List.append_assoc]
    exact h2

/-- C5, as stated, fails: a frame written with a `NULL` payload is read into the
pending slot, taken for an empty slot and overwritten by the next read. After
the writes of payloads 0, 2, 3, 4 the sink has received payload 2 only; the
first frame written is neither delivered, nor pending, nor queued. -/
theorem C5_counterexample :
    (videoInputs nullFirstRun).map AVFrame.frame = [0, 2, 3, 4]
    ∧ (∀ f ∈ videoInputs nullFirstRun, f.serial = 0)
    ∧ videoCalls (run silentSink nullFirstRun (construct 0 0)).trace = [SinkCall.on_video 2 0]
    ∧ (pendingVideo (run silentSink nullFirstRun (construct 0 0))
        ++ (run silentSink nullFirstRun (construct 0 0)).m_videoQ.frames).map AVFrame.frame
          = [3, 4] := by
  decide

/-- C5 (amended): for any sequence of calls from the constructed engine in which
every video frame is written with a non-`NULL` payload and the video queue's
current serial, the frames written are, in order, the frames delivered to
`on_video` (each once, with discard=0), then the pending frame, then the queued
frames: no frame is skipped, reordered or delivered twice; so when timestamps
are written in non-decreasing order they are presented in non-decreasing order. -/
theorem C5_video_fifo (notify : AudioSink) (vserial aserial : Int) (acts : List Action)
    (h : ∀ f ∈ videoInputs acts, f.frame ≠ 0 ∧ f.serial = vserial) :
    ∃ delivered,
      videoInputs acts = delivered
          ++ (pendingVideo (run notify acts (construct vserial aserial))
            ++ (run notify acts (construct vserial aserial)).m_videoQ.frames)
      ∧ videoCalls (run notify acts (construct vserial aserial)).trace
          = delivered.map (fun f => SinkCall.on_video f.frame 0)
      ∧ (List.Pairwise (fun a b => a ≤ b) ((videoInputs acts).map AVFrame.pts) →
          List.Pairwise (fun a b => a ≤ b) (delivered.map AVFrame.pts)) := by
  have h0 : fifoInv vserial [] (construct vserial aserial) :=
    ⟨rfl, [], by simp [pendingVideo, construct, AVFrame.zero], by simp [videoCalls, construct]⟩
  have hinv := fifoInv_run notify vserial acts [] _ (by simp) h h0
  rw [List.nil_append] at hinv
  obtain ⟨_, D, hD, htr⟩ := hinv
  refine ⟨D, hD, htr, ?_⟩
  intro hsorted
  rw [hD, List.map_append] at hsorted
  exact (List.pairwise_append.mp hsorted).1

/-- Witness of C5 (amended): three writes and one step. -/
theorem C5_video_fifo_witness :
    ∃ delivered,
      videoInputs [Action.play, Action.inputVideo 1 0 0, Action.inputVideo 2 40 0,
          Action.inputVideo 3 80 0, Action.onPlay 1000]
        = delivered
          ++ (pendingVideo (run silentSink [Action.play, Action.inputVideo 1 0 0,
              Action.inputVideo 2 40 0, Action.inputVideo 3 80 0, Action.onPlay 1000]
                (construct 0 0))
            ++ (run silentSink [Action.play, Action.inputVideo 1 0 0,
              Action.inputVideo 2 40 0, Action.inputVideo 3 80 0, Action.onPlay 1000]
                (construct 0 0)).m_videoQ.frames)
      ∧ videoCalls (run silentSink [Action.play, Action.inputVideo 1 0 0,
              Action.inputVideo 2 40 0, Action.inputVideo 3 80 0, Action.onPlay 1000]
                (construct 0 0)).trace
          = delivered.map (fun f => SinkCall.on_video f.frame 0)
      ∧ (List.Pairwise (fun a b => a ≤ b)
            ((videoInputs [Action.play, Action.inputVideo 1 0 0, Action.inputVideo 2 40 0,
              Action.inputVideo 3 80 0, Action.onPlay 1000]).map AVFrame.pts) →
          List.Pairwise (fun a b => a ≤ b) (delivered.map AVFrame.pts)) :=
  C5_video_fifo silentSink 0 0 [Action.play, Action.inputVideo 1 0 0, Action.inputVideo 2 40 0,
    Action.inputVideo 3 80 0, Action.onPlay 1000] (by decide)

/-! ## C3: the video-only scenario -/

lemma fillSlots_audio_empty (s : AVPlayerCore) (haq : s.m_audioQ.frames = []) :
    (fillSlots s).m_audio = s.m_audio ∧ (fillSlots s).m_audioQ = s.m_audioQ := by
  have h1 : (if s.m_video.frame = 0 then readVideo s else s).m_audio = s.m_audio
      ∧ (if s.m_video.frame = 0 then readVideo s else s).m_audioQ = s.m_audioQ := by
    split
    · exact ⟨(readVideo_frame s).2.2.2.2.1, (readVideo_frame s).2.2.2.2.2.1⟩
    · exact ⟨rfl, rfl⟩
  unfold fillSlots
  generalize (if s.m_video.frame = 0 then readVideo s else s) = s1 at h1
  dsimp only
  obtain ⟨h2, h3⟩ := h1
  have hq : s1.m_audioQ.frames = [] := by rw [h3]; exact haq
  by_cases h : s1.m_audio.frame = 0
  · rw [if_pos h]
    simp [readAudio, AVFrameQueue.Read, h2, h3, haq]
  · rw [if_neg h]
    exact ⟨h2, h3⟩

/-- One step of an engine without audio whose first video frame `f` is not stale. -/
lemma videoOnly_step (n : AudioSink) (t : Nat) (s : AVPlayerCore) (f : AVFrame)
    (rest : List AVFrame) (hg : ¬ gateClosed s) (haf : s.m_audio.frame = 0)
    (haq : s.m_audioQ.frames = []) (hW : pendingVideo s ++ s.m_videoQ.frames = f :: rest)
    (hf : f.frame ≠ 0) (hs : f.serial = s.m_videoQ.serial) :
    ((OnPlay n t s).2.m_buffering = false ∧ (OnPlay n t s).2.m_audio = s.m_audio
      ∧ (OnPlay n t s).2.m_audioQ = s.m_audioQ
      ∧ (OnPlay n t s).2.m_videoQ.serial = s.m_videoQ.serial)
    ∧ (t < u64add s.m_vclock.frame_time (frameDelta f.pts s.m_vclock.pts) →
        (OnPlay n t s).1
            = v_min (toInt32 (u64sub
                (u64add s.m_vclock.frame_time (frameDelta f.pts s.m_vclock.pts)) t)) 20
        ∧ (OnPlay n t s).2.trace
            = s.trace ++ (if s.m_buffering = true then [SinkCall.on_buffering 0] else [])
        ∧ (OnPlay n t s).2.m_vclock = s.m_vclock
        ∧ pendingVideo (OnPlay n t s).2 ++ (OnPlay n t s).2.m_videoQ.frames = f :: rest)
    ∧ (¬ t < u64add s.m_vclock.frame_time (frameDelta f.pts s.m_vclock.pts) →
        (OnPlay n t s).1 = 0
        ∧ (OnPlay n t s).2.trace
            = s.trace ++ (if s.m_buffering = true then [SinkCall.on_buffering 0] else [])
              ++ [SinkCall.on_video f.frame 0]
        ∧ (OnPlay n t s).2.m_vclock = { s.m_vclock with
            frame_time :=
              if u64sub t (u64add s.m_vclock.frame_time (frameDelta f.pts s.m_vclock.pts)) > 100
              then t else u64add s.m_vclock.frame_time (frameDelta f.pts s.m_vclock.pts)
            clock := t
            pts := f.pts }
        ∧ pendingVideo (OnPlay n t s).2 ++ (OnPlay n t s).2.m_videoQ.frames = rest) := by
  have hfill := fillSlots_frame s
  obtain ⟨hFv, hFq⟩ := fillSlots_head s f rest hW
  obtain ⟨hFa, hFaq⟩ := fillSlots_audio_empty s haq
  have hcb := clearBuffering_frame (fillSlots s)
  have hct := clearBuffering_trace (fillSlots s)
  rw [hfill.1, hfill.2.1] at hct
  have hCv : (clearBuffering (fillSlots s)).m_video = f := by rw [hcb.2.1, hFv]
  have hCc : (clearBuffering (fillSlots s)).m_vclock = s.m_vclock := by
    rw [hcb.2.2.2.2.2.1, hfill.2.2.1]
  have hCq : (clearBuffering (fillSlots s)).m_videoQ.frames = rest := by
    rw [hcb.2.2.2.1, hFq]
  have hCs : (clearBuffering (fillSlots s)).m_video.serial
      = (clearBuffering (fillSlots s)).m_videoQ.GetSerial := by
    rw [hCv, hcb.2.2.2.1]
    unfold AVFrameQueue.GetSerial
    rw [hfill.2.2.2.2.1]
    exact hs
  have hd : videoDiff (clearBuffering (fillSlots s)) = frameDelta f.pts s.m_vclock.pts := by
    unfold videoDiff frameDelta
    rw [hCv, hCc]
  have hn : ¬ ((fillSlots s).m_video.frame = 0 ∧ (fillSlots s).m_audio.frame = 0) := by
    rw [hFv]; exact fun h => hf h.1
  have hpa : playAudio n t (clearBuffering (fillSlots s))
      = (TIMEOUT_DEFAULT, clearBuffering (fillSlots s)) := by
    unfold playAudio
    rw [if_neg (by rw [hcb.2.2.1, hFa, haf]; simp)]
  have hplay : OnPlay n t s
      = (v_min (OnVideo t (clearBuffering (fillSlots s))).1 TIMEOUT_DEFAULT,
          (OnVideo t (clearBuffering (fillSlots s))).2) := by
    rw [OnPlay_eq, if_neg hg, if_neg hn, hpa]
    unfold playVideo
    dsimp only
    rw [if_pos (by rw [hCv]; exact hf)]
  have hframe := OnVideo_frame t (clearBuffering (fillSlots s))
  rw [hplay]
  refine ⟨⟨?_, ?_, ?_, ?_⟩, ?_, ?_⟩
  · rw [hframe.2.2.2.1, hcb.1]
  · rw [hframe.2.1, hcb.2.2.1, hFa]
  · rw [hframe.2.2.1, hcb.2.2.2.2.1, hFaq]
  · rw [hframe.1, hcb.2.2.2.1, hfill.2.2.2.2.1]
  · intro hlt
    have hlt2 : t < u64add (clearBuffering (fillSlots s)).m_vclock.frame_time
        (videoDiff (clearBuffering (fillSlots s))) := by rw [hd, hCc]; exact hlt
    rw [OnVideo_defer t _ hCs hlt2, hd, hCc]
    refine ⟨rfl, hct, rfl, ?_⟩
    dsimp only
    unfold pendingVideo
    rw [hCv, if_neg hf, hCq]
    rfl
  · intro hge
    have hge2 : ¬ t < u64add (clearBuffering (fillSlots s)).m_vclock.frame_time
        (videoDiff (clearBuffering (fillSlots s))) := by rw [hd, hCc]; exact hge
    rw [OnVideo_present t _ hCs hge2, hd, hCc, hCv]
    refine ⟨show v_min 0 TIMEOUT_DEFAULT = 0 from by decide, ?_, rfl, ?_⟩
    · dsimp only
      rw [hct]
    · dsimp only
      unfold pendingVideo
      dsimp only
      rw [if_pos rfl, hCq]
      rfl

lemma waiting_not_gate {vs : Int} {vc : AVClock} {tr : List SinkCall} {fs : List AVFrame}
    {s : AVPlayerCore} (h : Waiting vs vc tr fs s) : ¬ gateClosed s := by
  intro hg
  have hb := hg.1
  rw [h.1] at hb
  exact absurd hb (by decide)

/-- A step before the first frame is due defers and leaves the engine waiting. -/
lemma waiting_defer (n : AudioSink) (t : Nat) (vs : Int) (vc : AVClock)
    (tr : List SinkCall) (f : AVFrame) (rest : List AVFrame) (s : AVPlayerCore)
    (h : Waiting vs vc tr (f :: rest) s) (hf : f.frame ≠ 0) (hs : f.serial = vs)
    (hlt : t < u64add vc.frame_time (frameDelta f.pts vc.pts)) :
    (OnPlay n t s).1
        = v_min (toInt32 (u64sub (u64add vc.frame_time (frameDelta f.pts vc.pts)) t)) 20
    ∧ Waiting vs vc tr (f :: rest) (OnPlay n t s).2 := by
  obtain ⟨hb, haf, haq, hser, hvc, htr, hW⟩ := h
  obtain ⟨hc, hdef, _⟩ := videoOnly_step n t s f rest
    (waiting_not_gate ⟨hb, haf, haq, hser, hvc, htr, hW⟩) haf haq hW hf (by rw [hser]; exact hs)
  rw [hvc] at hdef
  obtain ⟨h1, h2, h3, h4⟩ := hdef hlt
  refine ⟨h1, hc.1, ?_, ?_, ?_, ?_, ?_, h4⟩
  · rw [hc.2.1]; exact haf
  · rw [hc.2.2.1]; exact haq
  · rw [hc.2.2.2]; exact hser
  · exact h3
  · rw [h2, hb, htr]; simp

/-- A step at or after the due time presents the first frame. -/
lemma waiting_present (n : AudioSink) (t : Nat) (vs : Int) (vc : AVClock)
    (tr : List SinkCall) (f : AVFrame) (rest : List AVFrame) (s : AVPlayerCore)
    (h : Waiting vs vc tr (f :: rest) s) (hf : f.frame ≠ 0) (hs : f.serial = vs)
    (hge : ¬ t < u64add vc.frame_time (frameDelta f.pts vc.pts)) :
    (OnPlay n t s).1 = 0
    ∧ Waiting vs
        { vc with
          frame_time :=
            if u64sub t (u64add vc.frame_time (frameDelta f.pts vc.pts)) > 100
            then t else u64add vc.frame_time (frameDelta f.pts vc.pts)
          clock := t
          pts := f.pts }
        (tr ++ [SinkCall.on_video f.frame 0]) rest (OnPlay n t s).2 := by
  obtain ⟨hb, haf, haq, hser, hvc, htr, hW⟩ := h
  obtain ⟨hc, _, hpre⟩ := videoOnly_step n t s f rest
    (waiting_not_gate ⟨hb, haf, haq, hser, hvc, htr, hW⟩) haf haq hW hf (by rw [hser]; exact hs)
  rw [hvc] at hpre
  obtain ⟨h1, h2, h3, h4⟩ := hpre hge
  refine ⟨h1, hc.1, ?_, ?_, ?_, ?_, ?_, h4⟩
  · rw [hc.2.1]; exact haf
  · rw [hc.2.2.1]; exact haq
  · rw [hc.2.2.2]; exact hser
  · rw [h3]
  · rw [h2, hb, htr]; simp

/-- Steps before the first frame is due all defer. -/
lemma waiting_steps (n : AudioSink) (vs : Int) (vc : AVClock) (tr : List SinkCall)
    (f : AVFrame) (rest : List AVFrame) (hf : f.frame ≠ 0) (hs : f.serial = vs)
    (ts : List Nat) :
    ∀ s, Waiting vs vc tr (f :: rest) s →
      (∀ t ∈ ts, t < u64add vc.frame_time (frameDelta f.pts vc.pts)) →
      (steps n ts s).1 = ts.map (fun t =>
          v_min (toInt32 (u64sub (u64add vc.frame_time (frameDelta f.pts vc.pts)) t)) 20)
      ∧ Waiting vs vc tr (f :: rest) (steps n ts s).2 := by
  induction ts with
  | nil => intro s h _; exact ⟨rfl, h⟩
  | cons t ts ih =>
    intro s h hts
    obtain ⟨h1, h2⟩ := waiting_defer n t vs vc tr f rest s h hf hs
      (hts t (List.mem_cons_self _ _))
    obtain ⟨h3, h4⟩ := ih _ h2 (fun x hx => hts x (List.mem_cons_of_mem _ hx))
    simp only [steps, List.map_cons]
    exact ⟨by rw [h1, h3], h4⟩

lemma defer_wait_eq {due t : Nat} (hdue : due < 2 ^ 64) (hlt : t < due)
    (hsmall : due - t < 2 ^ 31) :
    v_min (toInt32 (u64sub due t)) 20 = min 20 ((due - t : Nat) : Int) := by
  have h1 : u64sub due t = due - t := u64sub_of_le (le_of_lt hlt) hdue
  rw [h1]
  unfold v_min toInt32
  rw [min_def]
  split <;> split <;> split <;> omega

/-- The scenario state after the first step at `t0`. -/
lemma scenario_first (n : AudioSink) (vs as : Int) (f0 f1 f2 t0 : Nat) (hf0 : f0 ≠ 0)
    (ht0 : 100 < t0) (hno : t0 < 2 ^ 64) :
    (OnPlay n t0 (scenarioStart vs as f0 f1 f2)).1 = 0
    ∧ Waiting vs ⟨0, t0, t0, 0⟩ [SinkCall.on_buffering 0, SinkCall.on_video f0 0]
        [⟨f1, 40, 0, vs⟩, ⟨f2, 80, 0, vs⟩] (OnPlay n t0 (scenarioStart vs as f0 f1 f2)).2 := by
  have hg0 : ¬ gateClosed (scenarioStart vs as f0 f1 f2) := by
    unfold gateClosed
    simp [scenarioStart, InputVideo, AVFrameQueue.Write, AVFrameQueue.Size, Play, construct]
  have hW0 : pendingVideo (scenarioStart vs as f0 f1 f2)
      ++ (scenarioStart vs as f0 f1 f2).m_videoQ.frames
        = [⟨f0, 0, 0, vs⟩, ⟨f1, 40, 0, vs⟩, ⟨f2, 80, 0, vs⟩] := by
    simp [pendingVideo, scenarioStart, InputVideo, AVFrameQueue.Write, Play, construct,
      AVFrame.zero]
  obtain ⟨hc, _, hpre⟩ := videoOnly_step n t0 (scenarioStart vs as f0 f1 f2) ⟨f0, 0, 0, vs⟩
    [⟨f1, 40, 0, vs⟩, ⟨f2, 80, 0, vs⟩] hg0 rfl rfl hW0 hf0 rfl
  have hdue : u64add (scenarioStart vs as f0 f1 f2).m_vclock.frame_time
      (frameDelta (⟨f0, 0, 0, vs⟩ : AVFrame).pts (scenarioStart vs as f0 f1 f2).m_vclock.pts)
        = 0 := by
    show u64add 0 (frameDelta 0 0) = 0
    decide
  rw [hdue] at hpre
  obtain ⟨h1, h2, h3, h4⟩ := hpre (by omega)
  have hsub : u64sub t0 0 = t0 := by unfold u64sub; omega
  refine ⟨h1, hc.1, ?_, ?_, ?_, ?_, ?_, h4⟩
  · rw [hc.2.1]; rfl
  · rw [hc.2.2.1]; rfl
  · rw [hc.2.2.2]; rfl
  · rw [h3, hsub, if_pos (by omega)]
    rfl
  · rw [h2]
    rfl

/-- C3, as stated, fails at the top of the clock range: with `t0 = 2^64 - 10`
the due time `t0 + 40` of the second frame wraps around to 30, and the step at
`t = 2^64 - 5` (so `t0 <= t < t0 + 40`) presents the second frame and returns 0. -/
theorem C3_counterexample :
    (OnPlay silentSink (2 ^ 64 - 10) (scenarioStart 0 0 1 2 3)).2.trace
      = [SinkCall.on_buffering 0, SinkCall.on_video 1 0]
    ∧ 100 < 2 ^ 64 - 10 ∧ 2 ^ 64 - 10 ≤ 2 ^ 64 - 5 ∧ 2 ^ 64 - 5 < 2 ^ 64 - 10 + 40
    ∧ (OnPlay silentSink (2 ^ 64 - 5)
        (OnPlay silentSink (2 ^ 64 - 10) (scenarioStart 0 0 1 2 3)).2).1 = 0
    ∧ (OnPlay silentSink (2 ^ 64 - 5)
        (OnPlay silentSink (2 ^ 64 - 10) (scenarioStart 0 0 1 2 3)).2).2.trace
      = [SinkCall.on_buffering 0, SinkCall.on_video 1 0, SinkCall.on_video 2 0] := by
  decide

/-- C3 (amended): video-only scenario, for `t0 > 100` with `t0 + 80 < 2^64`. From
the state after construction, `Play()` and the writes of three non-null frames
with timestamps 0, 40, 80 under the video queue's serial, the step `OnPlay(t0)`
emits `on_buffering(0)` then `on_video(frame 0, 0)` and returns 0; every later
step at a clock `t` with `t0 <= t < t0+40` presents nothing and returns
`min(20, t0+40-t)`; the first step at `t1 >= t0+40` presents frame 40; and if
`t1 <= t0+140`, the steps at `t1 <= t < t0+80` present nothing and the first step
at `t2 >= t0+80` presents frame 80. -/
theorem C3_video_only_scenario (n : AudioSink) (vs as : Int) (f0 f1 f2 t0 : Nat)
    (hf0 : f0 ≠ 0) (hf1 : f1 ≠ 0) (hf2 : f2 ≠ 0) (ht0 : 100 < t0) (hno : t0 + 80 < 2 ^ 64) :
    (OnPlay n t0 (scenarioStart vs as f0 f1 f2)).1 = 0
    ∧ (OnPlay n t0 (scenarioStart vs as f0 f1 f2)).2.trace
        = [SinkCall.on_buffering 0, SinkCall.on_video f0 0]
    ∧ ∀ ts, (∀ t ∈ ts, t0 ≤ t ∧ t < t0 + 40) →
      (steps n ts (OnPlay n t0 (scenarioStart vs as f0 f1 f2)).2).1
          = ts.map (fun t => min 20 ((t0 + 40 - t : Nat) : Int))
      ∧ (steps n ts (OnPlay n t0 (scenarioStart vs as f0 f1 f2)).2).2.trace
          = [SinkCall.on_buffering 0, SinkCall.on_video f0 0]
      ∧ ∀ t1, t0 + 40 ≤ t1 → t1 < 2 ^ 64 →
        (OnPlay n t1 (steps n ts (OnPlay n t0 (scenarioStart vs as f0 f1 f2)).2).2).1 = 0
        ∧ (OnPlay n t1 (steps n ts (OnPlay n t0 (scenarioStart vs as f0 f1 f2)).2).2).2.trace
            = [SinkCall.on_buffering 0, SinkCall.on_video f0 0, SinkCall.on_video f1 0]
        ∧ (t1 ≤ t0 + 140 → ∀ us, (∀ t ∈ us, t1 ≤ t ∧ t < t0 + 80) →
            (steps n us (OnPlay n t1
                (steps n ts (OnPlay n t0 (scenarioStart vs as f0 f1 f2)).2).2).2).1
              = us.map (fun t => min 20 ((t0 + 80 - t : Nat) : Int))
            ∧ (steps n us (OnPlay n t1
                (steps n ts (OnPlay n t0 (scenarioStart vs as f0 f1 f2)).2).2).2).2.trace
              = [SinkCall.on_buffering 0, SinkCall.on_video f0 0, SinkCall.on_video f1 0]
            ∧ ∀ t2, t0 + 80 ≤ t2 → t2 < 2 ^ 64 →
              (OnPlay n t2 (steps n us (OnPlay n t1
                (steps n ts (OnPlay n t0 (scenarioStart vs as f0 f1 f2)).2).2).2).2).1 = 0
              ∧ (OnPlay n t2 (steps n us (OnPlay n t1
                (steps n ts (OnPlay n t0 (scenarioStart vs as f0 f1 f2)).2).2).2).2).2.trace
                = [SinkCall.on_buffering 0, SinkCall.on_video f0 0, SinkCall.on_video f1 0,
                    SinkCall.on_video f2 0]) := by
  obtain ⟨hr1, hw1⟩ := scenario_first n vs as f0 f1 f2 t0 hf0 ht0 (by omega)
  have hd1 : frameDelta 40 0 = 40 := by decide
  have hdue1 : u64add t0 (frameDelta 40 0) = t0 + 40 := by
    rw [hd1]; unfold u64add; omega
  refine ⟨hr1, hw1.2.2.2.2.2.1, ?_⟩
  intro ts hts
  obtain ⟨hrs, hw2⟩ := waiting_steps n vs ⟨0, t0, t0, 0⟩ _ ⟨f1, 40, 0, vs⟩ [⟨f2, 80, 0, vs⟩]
    hf1 rfl ts _ hw1 (by
      intro t ht
      show t < u64add t0 (frameDelta 40 0)
      rw [hdue1]
      exact (hts t ht).2)
  refine ⟨?_, hw2.2.2.2.2.2.1, ?_⟩
  · rw [hrs]
    apply List.map_congr_left
    intro t ht
    show v_min (toInt32 (u64sub (u64add t0 (frameDelta 40 0)) t)) 20 = _
    rw [hdue1]
    have := hts t ht
    exact defer_wait_eq (by omega) this.2 (by omega)
  · intro t1 ht1 ht1b
    obtain ⟨hr3, hw3⟩ := waiting_present n t1 vs ⟨0, t0, t0, 0⟩ _ ⟨f1, 40, 0, vs⟩
      [⟨f2, 80, 0, vs⟩] _ hw2 hf1 rfl (by
        show ¬ t1 < u64add t0 (frameDelta 40 0)
        rw [hdue1]
        omega)
    refine ⟨hr3, hw3.2.2.2.2.2.1, ?_⟩
    intro ht1c us hus
    have hft : (if u64sub t1 (u64add t0 (frameDelta 40 0)) > 100 then t1
        else u64add t0 (frameDelta 40 0)) = t0 + 40 := by
      rw [hdue1, u64sub_of_le ht1 ht1b, if_neg (by omega)]
    have hw3b : Waiting vs ⟨40, t1, t0 + 40, 0⟩
        [SinkCall.on_buffering 0, SinkCall.on_video f0 0, SinkCall.on_video f1 0]
        [⟨f2, 80, 0, vs⟩]
        (OnPlay n t1 (steps n ts (OnPlay n t0 (scenarioStart vs as f0 f1 f2)).2).2).2 := by
      obtain ⟨a1, a2, a3, a4, a5, a6, a7⟩ := hw3
      refine ⟨a1, a2, a3, a4, ?_, a6, a7⟩
      rw [a5]
      show (⟨40, t1, (if u64sub t1 (u64add t0 (frameDelta 40 0)) > 100 then t1
        else u64add t0 (frameDelta 40 0)), 0⟩ : AVClock) = _
      rw [hft]
    have hd2 : frameDelta 80 40 = 40 := by decide
    have hdue2 : u64add (t0 + 40) (frameDelta 80 40) = t0 + 80 := by
      rw [hd2]; unfold u64add; omega
    obtain ⟨hrs4, hw4⟩ := waiting_steps n vs ⟨40, t1, t0 + 40, 0⟩ _ ⟨f2, 80, 0, vs⟩ []
      hf2 rfl us _ hw3b (by
        intro t ht
        show t < u64add (t0 + 40) (frameDelta 80 40)
        rw [hdue2]
        exact (hus t ht).2)
    refine ⟨?_, hw4.2.2.2.2.2.1, ?_⟩
    · rw [hrs4]
      apply List.map_congr_left
      intro t ht
      show v_min (toInt32 (u64sub (u64add (t0 + 40) (frameDelta 80 40)) t)) 20 = _
      rw [hdue2]
      have := hus t ht
      exact defer_wait_eq (by omega) this.2 (by omega)
    · intro t2 ht2 _
      obtain ⟨hr5, hw5⟩ := waiting_present n t2 vs ⟨40, t1, t0 + 40, 0⟩ _ ⟨f2, 80, 0, vs⟩
        [] _ hw4 hf2 rfl (by
          show ¬ t2 < u64add (t0 + 40) (frameDelta 80 40)
          rw [hdue2]
          omega)
      exact ⟨hr5, hw5.2.2.2.2.2.1⟩

/-- Witness of C3 (amended): payloads 1, 2, 3 and `t0 = 1000`. -/
theorem C3_video_only_scenario_witness :
    (OnPlay silentSink 1000 (scenarioStart 0 0 1 2 3)).1 = 0
    ∧ (OnPlay silentSink 1000 (scenarioStart 0 0 1 2 3)).2.trace
        = [SinkCall.on_buffering 0, SinkCall.on_video 1 0] :=
  ⟨(C3_video_only_scenario silentSink 0 0 1 2 3 1000 (by decide) (by decide) (by decide)
      (by decide) (by decide)).1,
    (C3_video_only_scenario silentSink 0 0 1 2 3 1000 (by decide) (by decide) (by decide)
      (by decide) (by decide)).2.1⟩

/-! ## C11, C12: the audio step -/

/-- C11, as stated, fails in its parenthesis: with the audio clock all zero and
`now = 2^63 + 1`, more wall time has elapsed (`2^63 + 1`) than was buffered
(0), yet the remaining duration wraps around to `2^63 - 1`, which is above 100
as a signed value, and `OnAudio` returns 50 without presenting the frame. -/
theorem C11_counterexample :
    (audioPending ⟨5, 0, 10, 0⟩ AVClock.zero 0).m_audio.serial
        = (audioPending ⟨5, 0, 10, 0⟩ AVClock.zero 0).m_audioQ.GetSerial
    ∧ (audioPending ⟨5, 0, 10, 0⟩ AVClock.zero 0).m_aclock.frame_time
        < (2 ^ 63 + 1) - (audioPending ⟨5, 0, 10, 0⟩ AVClock.zero 0).m_aclock.clock
    ∧ toInt64 (u64sub (audioPending ⟨5, 0, 10, 0⟩ AVClock.zero 0).m_aclock.frame_time
        (u64sub (2 ^ 63 + 1) (audioPending ⟨5, 0, 10, 0⟩ AVClock.zero 0).m_aclock.clock))
          = 2 ^ 63 - 1
    ∧ OnAudio silentSink (2 ^ 63 + 1) (audioPending ⟨5, 0, 10, 0⟩ AVClock.zero 0)
        = (50, audioPending ⟨5, 0, 10, 0⟩ AVClock.zero 0) := by
  decide

/-- C11 (amended): when `OnAudio(now)` runs with a non-stale pending frame, let
`remaining = virtualElapsed - (now - wallClockAtPresent)` in 64-bit wrap-around
arithmetic, read as a signed 64-bit integer. If `remaining > 100`, `OnAudio`
returns 50, makes no sink call and leaves the whole state unchanged; if
`remaining <= 100` the frame is presented; and `remaining <= 100` holds in every
case where the wall time elapsed exceeds what was buffered by at most `2^63`. -/
theorem C11_audio_pacing (notify : AudioSink) (now : Nat) (s : AVPlayerCore)
    (hs : s.m_audio.serial = s.m_audioQ.GetSerial) :
    (toInt64 (u64sub s.m_aclock.frame_time (u64sub now s.m_aclock.clock)) > 100 →
        OnAudio notify now s = (50, s) ∧ emitted s (OnAudio notify now s).2 = [])
    ∧ (toInt64 (u64sub s.m_aclock.frame_time (u64sub now s.m_aclock.clock)) ≤ 100 →
        (OnAudio notify now s).1 = 0
        ∧ emitted s (OnAudio notify now s).2 = [SinkCall.on_audio s.m_audio.frame 0]
        ∧ (OnAudio notify now s).2.m_audio.frame = 0)
    ∧ (now < 2 ^ 64 → s.m_aclock.clock ≤ now →
        s.m_aclock.frame_time ≤ now - s.m_aclock.clock →
        now - s.m_aclock.clock - s.m_aclock.frame_time ≤ 2 ^ 63 →
        toInt64 (u64sub s.m_aclock.frame_time (u64sub now s.m_aclock.clock)) ≤ 0) := by
  refine ⟨?_, ?_, ?_⟩
  · intro hd
    have h := OnAudio_defer notify now s hs hd
    rw [h]
    exact ⟨rfl, emitted_self s⟩
  · intro hd
    have h := OnAudio_present notify now s hs (by
      show ¬ toInt64 (u64sub s.m_aclock.frame_time (u64sub now s.m_aclock.clock)) > 100
      omega)
    rw [h]
    refine ⟨rfl, ?_, ?_⟩
    · apply emitted_of_append
      rw [AVSync_trace]
    · rw [(AVSync_frames _ _).2.1]
  · intro h1 h2 h3 h4
    unfold toInt64 u64sub
    split <;> omega

/-- Witness of C11 (amended): 500 buffered at wall clock 1000, stepped at 1100. -/
theorem C11_audio_pacing_witness :
    OnAudio silentSink 1100 (audioPending ⟨5, 0, 10, 0⟩ ⟨0, 1000, 500, 0⟩ 0)
      = (50, audioPending ⟨5, 0, 10, 0⟩ ⟨0, 1000, 500, 0⟩ 0) :=
  ((C11_audio_pacing silentSink 1100 (audioPending ⟨5, 0, 10, 0⟩ ⟨0, 1000, 500, 0⟩ 0)
    (by decide)).1 (by decide)).1

/-- C12, as stated, fails: the new `presentedTimestamp` is a 64-bit sum. With the
audio clock at `presentedTimestamp = 2^64 - 5` and tracked duration 10, the
frame is presented and the new `presentedTimestamp` is 5, not `2^64 + 5`. -/
theorem C12_counterexample :
    (audioPending ⟨5, 70, 10, 0⟩ ⟨2 ^ 64 - 5, 1000, 30, 10⟩ 0).m_audio.serial
        = (audioPending ⟨5, 70, 10, 0⟩ ⟨2 ^ 64 - 5, 1000, 30, 10⟩ 0).m_audioQ.GetSerial
    ∧ toInt64 (u64sub (audioPending ⟨5, 70, 10, 0⟩ ⟨2 ^ 64 - 5, 1000, 30, 10⟩ 0).m_aclock.frame_time
        (u64sub 1040 (audioPending ⟨5, 70, 10, 0⟩ ⟨2 ^ 64 - 5, 1000, 30, 10⟩ 0).m_aclock.clock))
          = -10
    ∧ emitted (audioPending ⟨5, 70, 10, 0⟩ ⟨2 ^ 64 - 5, 1000, 30, 10⟩ 0)
        (OnAudio steadySink 1040 (audioPending ⟨5, 70, 10, 0⟩ ⟨2 ^ 64 - 5, 1000, 30, 10⟩ 0)).2
          = [SinkCall.on_audio 5 0]
    ∧ 0 < (audioPending ⟨5, 70, 10, 0⟩ ⟨2 ^ 64 - 5, 1000, 30, 10⟩ 0).m_aclock.duration
    ∧ (audioPending ⟨5, 70, 10, 0⟩ ⟨2 ^ 64 - 5, 1000, 30, 10⟩ 0).m_aclock.pts
        + (audioPending ⟨5, 70, 10, 0⟩ ⟨2 ^ 64 - 5, 1000, 30, 10⟩ 0).m_aclock.duration
          = 2 ^ 64 + 5
    ∧ (OnAudio steadySink 1040
        (audioPending ⟨5, 70, 10, 0⟩ ⟨2 ^ 64 - 5, 1000, 30, 10⟩ 0)).2.m_aclock.pts = 5 := by
  decide

/-- C12 (amended): when `OnAudio(now)` presents a frame (non-stale, pacing
passed), the new `presentedTimestamp` is the old one plus the old tracked
duration, modulo `2^64` (the plain sum when that is below `2^64`), if that
duration was positive, and the frame's timestamp otherwise; the tracked duration
is the frame's; `wallClockAtPresent = now`; `on_audio(payload, 0)` is the one
sink call; `virtualElapsed` is the value that call returned (a 64-bit value);
the pending slot is empty; and the result is 0. -/
theorem C12_audio_present (notify : AudioSink) (now : Nat) (s : AVPlayerCore)
    (hs : s.m_audio.serial = s.m_audioQ.GetSerial)
    (hd : toInt64 (u64sub s.m_aclock.frame_time (u64sub now s.m_aclock.clock)) ≤ 100) :
    (OnAudio notify now s).1 = 0
    ∧ (OnAudio notify now s).2.m_aclock.pts
        = (if s.m_aclock.duration > 0 then (s.m_aclock.pts + s.m_aclock.duration) % 2 ^ 64
            else s.m_audio.pts)
    ∧ (s.m_aclock.pts + s.m_aclock.duration < 2 ^ 64 →
        (OnAudio notify now s).2.m_aclock.pts
          = (if s.m_aclock.duration > 0 then s.m_aclock.pts + s.m_aclock.duration
              else s.m_audio.pts))
    ∧ (OnAudio notify now s).2.m_aclock.duration = s.m_audio.duration
    ∧ (OnAudio notify now s).2.m_aclock.clock = now
    ∧ emitted s (OnAudio notify now s).2 = [SinkCall.on_audio s.m_audio.frame 0]
    ∧ (OnAudio notify now s).2.m_aclock.frame_time
        = notify s.trace s.m_audio.frame % 2 ^ 64
    ∧ (notify s.trace s.m_audio.frame < 2 ^ 64 →
        (OnAudio notify now s).2.m_aclock.frame_time = notify s.trace s.m_audio.frame)
    ∧ (OnAudio notify now s).2.m_audio.frame = 0 := by
  have h := OnAudio_present notify now s hs (by
    show ¬ toInt64 (u64sub s.m_aclock.frame_time (u64sub now s.m_aclock.clock)) > 100
    omega)
  rw [h]
  dsimp only
  rw [(AVSync_frames _ _).2.2.2.2.2, (AVSync_frames _ _).2.1]
  refine ⟨rfl, rfl, ?_, rfl, rfl, ?_, rfl, ?_, rfl⟩
  · intro hlt
    unfold u64add
    rw [Nat.mod_eq_of_lt hlt]
  · apply emitted_of_append
    rw [AVSync_trace]
  · intro hlt
    exact Nat.mod_eq_of_lt hlt

/-- Witness of C12: a first frame (no duration tracked yet) at wall clock 1000. -/
theorem C12_audio_present_witness :
    (OnAudio steadySink 1000 (audioPending ⟨5, 70, 10, 0⟩ AVClock.zero 0)).2.m_aclock.pts = 70 :=
  (C12_audio_present steadySink 1000 (audioPending ⟨5, 70, 10, 0⟩ AVClock.zero 0)
    (by decide) (by decide)).2.1

/-! ## C13, C14: audio-driven resynchronisation -/

/-- C13, as stated, fails in two ways, both by 64-bit wrap-around. With the
video `virtualElapsed` at 2000 and `now = 1000`, `now - virtualElapsed <= 100`
holds for the integers, yet the unsigned difference is above 100 and the video
clock is snapped back to 1000. With an audio frame of timestamp `2^64 - 5` and
duration 10, 30 buffered, and the video clock 1000 behind, the sum is not below
`virtualElapsed` for the integers, yet it wraps around to 5, the guard skips
and the video clock is left unchanged. -/
theorem C13_counterexample :
    (¬ u64add (audioPending ⟨0, 70, 10, 0⟩ ⟨70, 1000, 30, 10⟩ 2000).m_audio.pts
          (audioPending ⟨0, 70, 10, 0⟩ ⟨70, 1000, 30, 10⟩ 2000).m_audio.duration
        < (audioPending ⟨0, 70, 10, 0⟩ ⟨70, 1000, 30, 10⟩ 2000).m_aclock.frame_time)
    ∧ ((1000 : Int)
        - ((audioPending ⟨0, 70, 10, 0⟩ ⟨70, 1000, 30, 10⟩ 2000).m_vclock.frame_time : Int)
          ≤ 100)
    ∧ (AVSync 1000 (audioPending ⟨0, 70, 10, 0⟩ ⟨70, 1000, 30, 10⟩ 2000)).m_vclock
        = { AVClock.zero with pts := 50, frame_time := 1000 }
    ∧ (audioPending ⟨0, 70, 10, 0⟩ ⟨70, 1000, 30, 10⟩ 2000).m_vclock
        = { AVClock.zero with frame_time := 2000 }
    ∧ (¬ (audioPending ⟨0, 2 ^ 64 - 5, 10, 0⟩ ⟨0, 0, 30, 0⟩ 0).m_audio.pts
          + (audioPending ⟨0, 2 ^ 64 - 5, 10, 0⟩ ⟨0, 0, 30, 0⟩ 0).m_audio.duration
        < (audioPending ⟨0, 2 ^ 64 - 5, 10, 0⟩ ⟨0, 0, 30, 0⟩ 0).m_aclock.frame_time)
    ∧ 1000 - (audioPending ⟨0, 2 ^ 64 - 5, 10, 0⟩ ⟨0, 0, 30, 0⟩ 0).m_vclock.frame_time > 100
    ∧ AVSync 1000 (audioPending ⟨0, 2 ^ 64 - 5, 10, 0⟩ ⟨0, 0, 30, 0⟩ 0)
        = audioPending ⟨0, 2 ^ 64 - 5, 10, 0⟩ ⟨0, 0, 30, 0⟩ 0 := by
  decide

/-- C13 (amended): `AVSync(now)`, every sum and difference being taken modulo
`2^64`. If `audioFrame.timestamp + audioFrame.duration <
audioClock.virtualElapsed` nothing changes; otherwise, with `systemPts =
audioFrame.timestamp + audioFrame.duration - audioClock.virtualElapsed`, if
`now - videoClock.virtualElapsed > 100` then the video `presentedTimestamp`
becomes `systemPts` and the video `virtualElapsed` becomes `now`, and if
`now - videoClock.virtualElapsed <= 100` the video clock is unchanged; in every
case the audio clock and the video `wallClockAtPresent` are unchanged. In
particular, when `audioFrame.timestamp + audioFrame.duration < 2^64` and
`videoClock.virtualElapsed <= now`, all of this holds for the plain sums and
differences. -/
theorem C13_avsync (now : Nat) (s : AVPlayerCore) :
    (u64add s.m_audio.pts s.m_audio.duration < s.m_aclock.frame_time → AVSync now s = s)
    ∧ (¬ u64add s.m_audio.pts s.m_audio.duration < s.m_aclock.frame_time →
        u64sub now s.m_vclock.frame_time > 100 →
        (AVSync now s).m_vclock = { s.m_vclock with
          pts := u64sub (u64add s.m_audio.pts s.m_audio.duration) s.m_aclock.frame_time
          frame_time := now })
    ∧ (¬ u64add s.m_audio.pts s.m_audio.duration < s.m_aclock.frame_time →
        u64sub now s.m_vclock.frame_time ≤ 100 → (AVSync now s).m_vclock = s.m_vclock)
    ∧ (AVSync now s).m_aclock = s.m_aclock
    ∧ (AVSync now s).m_vclock.clock = s.m_vclock.clock
    ∧ u64add s.m_audio.pts s.m_audio.duration = (s.m_audio.pts + s.m_audio.duration) % 2 ^ 64
    ∧ (s.m_vclock.frame_time < 2 ^ 64 →
        ((u64sub now s.m_vclock.frame_time : Nat) : Int)
          = ((now : Int) - (s.m_vclock.frame_time : Int)) % 2 ^ 64)
    ∧ (now < 2 ^ 64 → s.m_audio.pts + s.m_audio.duration < 2 ^ 64 →
        s.m_vclock.frame_time ≤ now →
        (s.m_audio.pts + s.m_audio.duration < s.m_aclock.frame_time → AVSync now s = s)
        ∧ (s.m_aclock.frame_time ≤ s.m_audio.pts + s.m_audio.duration →
            now - s.m_vclock.frame_time > 100 →
            (AVSync now s).m_vclock = { s.m_vclock with
              pts := s.m_audio.pts + s.m_audio.duration - s.m_aclock.frame_time
              frame_time := now })
        ∧ (s.m_aclock.frame_time ≤ s.m_audio.pts + s.m_audio.duration →
            now - s.m_vclock.frame_time ≤ 100 → (AVSync now s).m_vclock = s.m_vclock)) := by
  have hskip : u64add s.m_audio.pts s.m_audio.duration < s.m_aclock.frame_time →
      AVSync now s = s := by
    intro h
    unfold AVSync
    rw [if_pos h]
  have hsnap : ¬ u64add s.m_audio.pts s.m_audio.duration < s.m_aclock.frame_time →
      u64sub now s.m_vclock.frame_time > 100 →
      (AVSync now s).m_vclock = { s.m_vclock with
        pts := u64sub (u64add s.m_audio.pts s.m_audio.duration) s.m_aclock.frame_time
        frame_time := now } := by
    intro h1 h2
    unfold AVSync
    rw [if_neg h1]
    dsimp only
    rw [if_pos h2]
  have hkeep : ¬ u64add s.m_audio.pts s.m_audio.duration < s.m_aclock.frame_time →
      u64sub now s.m_vclock.frame_time ≤ 100 → (AVSync now s).m_vclock = s.m_vclock := by
    intro h1 h2
    unfold AVSync
    rw [if_neg h1]
    dsimp only
    rw [if_neg (by omega)]
  refine ⟨hskip, hsnap, hkeep, (AVSync_frames now s).2.2.2.2.2, ?_, rfl, ?_, ?_⟩
  · unfold AVSync
    split
    · rfl
    · dsimp only
      split <;> rfl
  · intro h
    unfold u64sub
    omega
  · intro h1 h2 h3
    have e1 : u64add s.m_audio.pts s.m_audio.duration
        = s.m_audio.pts + s.m_audio.duration := by
      unfold u64add
      exact Nat.mod_eq_of_lt h2
    have e2 : u64sub now s.m_vclock.frame_time = now - s.m_vclock.frame_time :=
      u64sub_of_le h3 h1
    rw [e1] at hskip hsnap hkeep
    rw [e2] at hsnap hkeep
    refine ⟨hskip, ?_, ?_⟩
    · intro h4 h5
      rw [hsnap (by omega) h5, u64sub_of_le h4 h2]
    · intro h4 h5
      exact hkeep (by omega) h5

/-- Witness of C13: audio at timestamp 70 with duration 10, 30 buffered, video
virtual clock 150 behind the wall clock 1000. -/
theorem C13_avsync_witness :
    (AVSync 1000 (audioPending ⟨0, 70, 10, 0⟩ ⟨70, 1000, 30, 10⟩ 850)).m_vclock
      = { AVClock.zero with pts := 50, frame_time := 1000 } :=
  (C13_avsync 1000 (audioPending ⟨0, 70, 10, 0⟩ ⟨70, 1000, 30, 10⟩ 850)).2.1
    (by decide) (by decide)

/-- C14: for every engine state and clock value `now`, if `OnAudio(now)`
presents its pending frame and the resync guard does not skip (the 64-bit sum
`frame.timestamp + frame.duration` is at least the `virtualElapsed` returned by
the sink), then right after that audio step `now - videoClock.virtualElapsed
<= 100`, both as the 64-bit difference and as a difference of integers,
whatever the drift of the video clock was before. -/
theorem C14_drift_correction (notify : AudioSink) (now : Nat) (s : AVPlayerCore)
    (hnow : now < 2 ^ 64)
    (hs : s.m_audio.serial = s.m_audioQ.GetSerial)
    (hd : toInt64 (u64sub s.m_aclock.frame_time (u64sub now s.m_aclock.clock)) ≤ 100)
    (hguard : ¬ u64add s.m_audio.pts s.m_audio.duration
        < notify s.trace s.m_audio.frame % 2 ^ 64) :
    u64sub now (OnAudio notify now s).2.m_vclock.frame_time ≤ 100
    ∧ (now : Int) - ((OnAudio notify now s).2.m_vclock.frame_time : Int) ≤ 100 := by
  have h := OnAudio_present notify now s hs (by
    show ¬ toInt64 (u64sub s.m_aclock.frame_time (u64sub now s.m_aclock.clock)) > 100
    omega)
  rw [h]
  dsimp only
  unfold AVSync
  rw [if_neg hguard]
  dsimp only
  by_cases hdrift : u64sub now s.m_vclock.frame_time > 100
  · rw [if_pos hdrift]
    dsimp only
    constructor
    · unfold u64sub; omega
    · omega
  · rw [if_neg hdrift]
    dsimp only
    constructor
    · omega
    · unfold u64sub at hdrift
      omega

/-- Witness of C14: the video virtual clock is 150 behind the wall clock 1000. -/
theorem C14_drift_correction_witness :
    u64sub 1000 (OnAudio steadySink 1000
      (audioPending ⟨5, 70, 10, 0⟩ AVClock.zero 850)).2.m_vclock.frame_time ≤ 100 :=
  (C14_drift_correction steadySink 1000 (audioPending ⟨5, 70, 10, 0⟩ AVClock.zero 850)
    (by decide) (by decide) (by decide) (by decide)).1

/-! ## C15, C16: transport commands and the idle loop -/

/-- C15: `Play()` sets every field of both stream clocks to zero and the status
to playing; `Pause()` and `Stop()` set the status to paused and stopped and
leave both clocks unchanged; none of the three changes the pending frame slots,
the buffering flag or either queue, and none makes a sink call. -/
theorem C15_transport (s : AVPlayerCore) :
    Play s = { s with
      m_vclock := ⟨0, 0, 0, 0⟩, m_aclock := ⟨0, 0, 0, 0⟩, m_status := Status.play }
    ∧ Pause s = { s with m_status := Status.pause }
    ∧ Stop s = { s with m_status := Status.stop }
    ∧ (∀ t ∈ [Play s, Pause s, Stop s],
        t.m_video = s.m_video ∧ t.m_audio = s.m_audio ∧ t.m_buffering = s.m_buffering
        ∧ t.m_videoQ = s.m_videoQ ∧ t.m_audioQ = s.m_audioQ ∧ t.trace = s.trace
        ∧ emitted s t = [])
    ∧ (∀ t ∈ [Pause s, Stop s], t.m_vclock = s.m_vclock ∧ t.m_aclock = s.m_aclock) := by
  refine ⟨rfl, rfl, rfl, ?_, ?_⟩
  · intro t ht
    simp only [List.mem_cons, List.mem_singleton, List.not_mem_nil, or_false] at ht
    rcases ht with rfl | rfl | rfl <;>
      exact ⟨rfl, rfl, rfl, rfl, rfl, rfl, emitted_of_append (List.append_nil _).symm⟩
  · intro t ht
    simp only [List.mem_cons, List.mem_singleton, List.not_mem_nil, or_false] at ht
    rcases ht with rfl | rfl <;> exact ⟨rfl, rfl⟩

/-- C16: an iteration of the loop while the status is not playing changes
nothing: no sink call, no queue read, clocks, pending slots, buffering flag and
the wait timeout unchanged. In particular this holds for the constructed
(closed) engine and after `Play()`, `Pause()`, `Stop()` called in succession. -/
theorem C16_idle_wake (notify : AudioSink) (timedOut : Bool) (clock : Nat) (timeout : Int)
    (s : AVPlayerCore) :
    (s.m_status ≠ Status.play →
        OnThreadIter notify timedOut clock timeout s = (timeout, s))
    ∧ OnThreadIter notify timedOut clock timeout (Stop (Pause (Play s)))
        = (timeout, Stop (Pause (Play s)))
    ∧ OnThreadIter notify timedOut clock timeout (Pause s) = (timeout, Pause s)
    ∧ (∀ vs as, OnThreadIter notify timedOut clock timeout (construct vs as)
        = (timeout, construct vs as)) := by
  have key : ∀ t : AVPlayerCore, t.m_status ≠ Status.play →
      OnThreadIter notify timedOut clock timeout t = (timeout, t) := by
    intro t ht
    unfold OnThreadIter
    by_cases hto : timedOut = true
    · rw [if_pos hto, if_neg ht]
    · rw [if_neg hto]
  exact ⟨key s, key _ (by simp [Stop]), key _ (by simp [Pause]),
    fun vs as => key _ (by simp [construct])⟩

/-- Witness of C16: a wake of the paused engine holding three video frames. -/
theorem C16_idle_wake_witness :
    OnThreadIter silentSink true 1000 100 (Pause threeVideoFrames)
      = (100, Pause threeVideoFrames) :=
  (C16_idle_wake silentSink true 1000 100 (Pause threeVideoFrames)).1 (by decide)

/-! ## C19, C20: the video clock and the wait hint across a step -/

lemma OnVideo_frame_time (c : Nat) (s : AVPlayerCore) (hc : c < 2 ^ 64)
    (hft : s.m_vclock.frame_time ≤ c) :
    s.m_vclock.frame_time ≤ (OnVideo c s).2.m_vclock.frame_time
    ∧ (OnVideo c s).2.m_vclock.frame_time ≤ c := by
  by_cases h : s.m_video.serial = s.m_videoQ.GetSerial
  · by_cases hlt : c < u64add s.m_vclock.frame_time (videoDiff s)
    · rw [OnVideo_defer c s h hlt]
      exact ⟨le_refl _, hft⟩
    · rw [OnVideo_present c s h hlt]
      dsimp only
      have hd := videoDiff_le s
      unfold u64sub
      unfold u64add at hlt ⊢
      split <;> omega
  · rw [OnVideo_stale c s h]
    exact ⟨le_refl _, hft⟩

lemma playVideo_frame_time (c : Nat) (t : Int) (s : AVPlayerCore) (hc : c < 2 ^ 64)
    (hft : s.m_vclock.frame_time ≤ c) :
    s.m_vclock.frame_time ≤ (playVideo c t s).2.m_vclock.frame_time
    ∧ (playVideo c t s).2.m_vclock.frame_time ≤ c := by
  unfold playVideo
  split
  · exact OnVideo_frame_time c s hc hft
  · exact ⟨le_refl _, hft⟩

lemma playAudio_frame_time (n : AudioSink) (c : Nat) (s : AVPlayerCore)
    (hft : s.m_vclock.frame_time ≤ c) :
    s.m_vclock.frame_time ≤ (playAudio n c s).2.m_vclock.frame_time
    ∧ (playAudio n c s).2.m_vclock.frame_time ≤ c := by
  rcases (playAudio_cases n c s).2.1 with h | h
  · rw [h]; exact ⟨le_refl _, hft⟩
  · rw [h]; exact ⟨hft, le_refl _⟩

/-- C19: for every engine state and clock value `now` with
`videoClock.virtualElapsed <= now`, after `OnPlay(now)` the new value satisfies
`old virtualElapsed <= new virtualElapsed <= now`: the video virtual clock never
decreases across a step, hard reset and audio-driven snap included, and never
runs ahead of the wall clock, so the unsigned subtraction `now - virtualElapsed`
does not wrap around. -/
theorem C19_video_clock_monotone (notify : AudioSink) (now : Nat) (s : AVPlayerCore)
    (hnow : now < 2 ^ 64) (hft : s.m_vclock.frame_time ≤ now) :
    s.m_vclock.frame_time ≤ (OnPlay notify now s).2.m_vclock.frame_time
    ∧ (OnPlay notify now s).2.m_vclock.frame_time ≤ now
    ∧ u64sub now (OnPlay notify now s).2.m_vclock.frame_time
        = now - (OnPlay notify now s).2.m_vclock.frame_time := by
  have key : s.m_vclock.frame_time ≤ (OnPlay notify now s).2.m_vclock.frame_time
      ∧ (OnPlay notify now s).2.m_vclock.frame_time ≤ now := by
    have hfill := fillSlots_frame s
    have hcb := clearBuffering_frame (fillSlots s)
    rw [OnPlay_eq]
    split
    · exact ⟨le_refl _, hft⟩
    · split
      · dsimp only
        rw [hfill.2.2.1]
        exact ⟨le_refl _, hft⟩
      · have hC : (clearBuffering (fillSlots s)).m_vclock.frame_time
            = s.m_vclock.frame_time := by rw [hcb.2.2.2.2.2.1, hfill.2.2.1]
        have ha := playAudio_frame_time notify now (clearBuffering (fillSlots s))
          (by rw [hC]; exact hft)
        have hv := playVideo_frame_time now
          (playAudio notify now (clearBuffering (fillSlots s))).1
          (playAudio notify now (clearBuffering (fillSlots s))).2 hnow ha.2
        rw [hC] at ha
        exact ⟨le_trans ha.1 hv.1, hv.2⟩
  exact ⟨key.1, key.2, u64sub_of_le key.2 hnow⟩

/-- Witness of C19: three queued video frames, stepped at 1000. -/
theorem C19_video_clock_monotone_witness :
    threeVideoFrames.m_vclock.frame_time
        ≤ (OnPlay silentSink 1000 threeVideoFrames).2.m_vclock.frame_time :=
  (C19_video_clock_monotone silentSink 1000 threeVideoFrames (by decide) (by decide)).1

/-- The audio and video parts of a step: the result is not negative, the calls
made are frame calls, and the result is 0 exactly when a call was made. -/
lemma streams_wait (n : AudioSink) (c : Nat) (s : AVPlayerCore) (hc : c < 2 ^ 64)
    (hft : s.m_vclock.frame_time ≤ c) :
    0 ≤ (playVideo c (playAudio n c s).1 (playAudio n c s).2).1
    ∧ ∃ l, (playVideo c (playAudio n c s).1 (playAudio n c s).2).2.trace = s.trace ++ l
      ∧ (∀ x ∈ l, x.isFrame = true)
      ∧ ((playVideo c (playAudio n c s).1 (playAudio n c s).2).1 = 0 ↔ l ≠ []) := by
  obtain ⟨_, _, ha⟩ := playAudio_cases n c s
  have hft2 := (playAudio_frame_time n c s hft).2
  obtain ⟨_, hv⟩ := playVideo_cases c (playAudio n c s).1 (playAudio n c s).2
  generalize (playAudio n c s).1 = ra at *
  generalize (playAudio n c s).2 = sA at *
  rcases ha with ⟨hr, hst⟩ | ⟨d, _, hr, htr, _, _, _⟩
  · subst hr hst
    rcases hv with ⟨hsame, hv | hv⟩ | ⟨e, _, hvr, hvt, _⟩
    · rw [hv.1, hsame]
      exact ⟨by decide, [], by simp, by simp, by simp⟩
    · have hb := defer_wait_bounds hft2 hc (videoDiff_le _) hv.2.2.2
      rw [hv.1, hsame]
      refine ⟨v_min_nonneg (le_of_lt hb.1) (by decide), [], by simp, by simp, ?_⟩
      simp only [ne_eq, not_true_eq_false, iff_false]
      unfold v_min
      split <;> omega
    · rw [hvr, hvt]
      refine ⟨by decide, [SinkCall.on_video sA.m_video.frame e], rfl, ?_, ?_⟩
      · simp [SinkCall.isFrame]
      · simp
        decide
  · subst hr
    rcases hv with ⟨hsame, hv | hv⟩ | ⟨e, _, hvr, hvt, _⟩
    · rw [hv.1, hsame, htr]
      exact ⟨by decide, [SinkCall.on_audio s.m_audio.frame d], rfl,
        by simp [SinkCall.isFrame], by simp⟩
    · have hb := defer_wait_bounds hft2 hc (videoDiff_le _) hv.2.2.2
      rw [hv.1, hsame, htr]
      refine ⟨v_min_nonneg (le_of_lt hb.1) (by decide),
        [SinkCall.on_audio s.m_audio.frame d], rfl, by simp [SinkCall.isFrame], ?_⟩
      simp only [ne_eq, List.cons_ne_self, not_false_eq_true, iff_true]
      unfold v_min
      split <;> omega
    · rw [hvr, hvt, htr]
      refine ⟨by decide, [SinkCall.on_audio s.m_audio.frame d,
        SinkCall.on_video sA.m_video.frame e], by simp,
        by simp [SinkCall.isFrame], ?_⟩
      simp
      decide

lemma no_frame_in_clear (b : Bool) :
    ∀ x ∈ (if b = true then [SinkCall.on_buffering 0] else []), x.isFrame = false := by
  intro x hx
  split at hx
  · simp at hx
    rw [hx]
    rfl
  · simp at hx

/-- C20: for every engine state and clock value `now` with
`videoClock.virtualElapsed <= now`, `OnPlay(now)` returns 0 if and only if at
least one `on_video` or `on_audio` call (present or discard) was made during
the step; the result is never negative, so a step that only defers, gates on
buffering or declares underrun returns a strictly positive wait. -/
theorem C20_zero_wait (notify : AudioSink) (now : Nat) (s : AVPlayerCore)
    (hnow : now < 2 ^ 64) (hft : s.m_vclock.frame_time ≤ now) :
    ((OnPlay notify now s).1 = 0
        ↔ ∃ x ∈ emitted s (OnPlay notify now s).2, x.isFrame = true)
    ∧ 0 ≤ (OnPlay notify now s).1
    ∧ ((∀ x ∈ emitted s (OnPlay notify now s).2, x.isFrame = false) →
        0 < (OnPlay notify now s).1) := by
  have main : ((OnPlay notify now s).1 = 0
        ↔ ∃ x ∈ emitted s (OnPlay notify now s).2, x.isFrame = true)
      ∧ 0 ≤ (OnPlay notify now s).1 := by
    obtain ⟨_, hgate, hunder, _⟩ := OnPlay_emitted notify now s
    by_cases hg : gateClosed s
    · rw [hgate hg, emitted_self]
      simp
    · by_cases hn : (fillSlots s).m_video.frame = 0 ∧ (fillSlots s).m_audio.frame = 0
      · obtain ⟨hem, hr, _⟩ := hunder hg hn
        rw [hem, hr]
        simp [SinkCall.isFrame]
      · have hfill := fillSlots_frame s
        have hcb := clearBuffering_frame (fillSlots s)
        have hct := clearBuffering_trace (fillSlots s)
        rw [hfill.1, hfill.2.1] at hct
        have hC : (clearBuffering (fillSlots s)).m_vclock.frame_time ≤ now := by
          rw [hcb.2.2.2.2.2.1, hfill.2.2.1]; exact hft
        obtain ⟨h0, l, htr, hall, hiff⟩ :=
          streams_wait notify now (clearBuffering (fillSlots s)) hnow hC
        have hplay : OnPlay notify now s
            = playVideo now (playAudio notify now (clearBuffering (fillSlots s))).1
                (playAudio notify now (clearBuffering (fillSlots s))).2 := by
          rw [OnPlay_eq, if_neg hg, if_neg hn]
        rw [← hplay] at h0 htr hiff
        rw [hct, List.append_assoc] at htr
        rw [emitted_of_append htr]
        refine ⟨?_, h0⟩
        rw [hiff]
        constructor
        · intro hl
          cases l with
          | nil => exact absurd rfl hl
          | cons x rest =>
            exact ⟨x, by simp, hall x (List.mem_cons_self _ _)⟩
        · rintro ⟨x, hx, hfr⟩
          rcases List.mem_append.mp hx with hx | hx
          · have := no_frame_in_clear s.m_buffering x hx
            rw [this] at hfr
            exact absurd hfr (by decide)
          · intro hl
            rw [hl] at hx
            simp at hx
  refine ⟨main.1, main.2, ?_⟩
  intro hno
  have hne : (OnPlay notify now s).1 ≠ 0 := by
    intro h0
    obtain ⟨x, hx, hfr⟩ := main.1.mp h0
    rw [hno x hx] at hfr
    exact absurd hfr (by decide)
  have := main.2
  omega

/-- Witness of C20: three queued video frames, stepped at 1000: the first frame
is presented and the result is 0. -/
theorem C20_zero_wait_witness :
    (OnPlay silentSink 1000 threeVideoFrames).1 = 0
      ↔ ∃ x ∈ emitted threeVideoFrames (OnPlay silentSink 1000 threeVideoFrames).2,
          x.isFrame = true :=
  (C20_zero_wait silentSink 1000 threeVideoFrames (by decide) (by decide)).1

/-! ## C18: no presentation while buffering -/

lemma idleInv_OnPlay (n : AudioSink) (c : Nat) (s : AVPlayerCore) (h : idleInv s) :
    idleInv (OnPlay n c s).2 := by
  obtain ⟨_, hgate, _, hrun⟩ := OnPlay_emitted n c s
  by_cases hg : gateClosed s
  · rw [hgate hg]
    exact h
  · by_cases hn : (fillSlots s).m_video.frame = 0 ∧ (fillSlots s).m_audio.frame = 0
    · rw [OnPlay_eq, if_neg hg, if_pos hn]
      intro _
      exact hn
    · intro hb
      rw [(hrun hg hn).1] at hb
      exact absurd hb (by decide)

lemma idleInv_step (n : AudioSink) (a : Action) (s : AVPlayerCore) (h : idleInv s) :
    idleInv (step n a s) := by
  cases a with
  | onPlay c => exact idleInv_OnPlay n c s h
  | play => exact h
  | pause => exact h
  | stop => exact h
  | inputVideo yuv pts serial => exact h
  | inputAudio pcm pts duration serial => exact h

lemma idleInv_run (n : AudioSink) (acts : List Action) :
    ∀ s, idleInv s → idleInv (run n acts s) := by
  induction acts with
  | nil => intro s h; exact h
  | cons a rest ih => intro s h; exact ih _ (idleInv_step n a s h)

/-- C18: in every state reachable from the constructed state by `Play`, `Pause`,
`Stop`, `Input` and `OnPlay` steps, the buffering flag being set implies that
both pending slots are empty; a step that makes an `on_video` or `on_audio` call
ends with the flag cleared, the calls of such a step being `on_buffering(0)` (if
the flag was set) followed by frame calls only; and a step that starts and ends
with the flag set makes no frame call and changes no clock. -/
theorem C18_no_presentation_while_buffering (notify : AudioSink) :
    (∀ (vs as : Int) (acts : List Action),
        (run notify acts (construct vs as)).m_buffering = true →
        (run notify acts (construct vs as)).m_video.frame = 0
        ∧ (run notify acts (construct vs as)).m_audio.frame = 0)
    ∧ (∀ (clock : Nat) (s : AVPlayerCore),
        (∃ x ∈ emitted s (OnPlay notify clock s).2, x.isFrame = true) →
        (OnPlay notify clock s).2.m_buffering = false
        ∧ ∃ fr, emitted s (OnPlay notify clock s).2
            = (if s.m_buffering = true then [SinkCall.on_buffering 0] else []) ++ fr
          ∧ ∀ x ∈ fr, x.isFrame = true)
    ∧ (∀ (clock : Nat) (s : AVPlayerCore), s.m_buffering = true →
        (OnPlay notify clock s).2.m_buffering = true →
        (∀ x ∈ emitted s (OnPlay notify clock s).2, x.isFrame = false)
        ∧ (OnPlay notify clock s).2.m_vclock = s.m_vclock
        ∧ (OnPlay notify clock s).2.m_aclock = s.m_aclock) := by
  refine ⟨?_, ?_, ?_⟩
  · intro vs as acts
    exact idleInv_run notify acts _ (fun _ => ⟨rfl, rfl⟩)
  · intro clock s ⟨x, hx, hfr⟩
    obtain ⟨_, hgate, hunder, hrun⟩ := OnPlay_emitted notify clock s
    by_cases hg : gateClosed s
    · rw [hgate hg, emitted_self] at hx
      simp at hx
    · by_cases hn : (fillSlots s).m_video.frame = 0 ∧ (fillSlots s).m_audio.frame = 0
      · rw [(hunder hg hn).1] at hx
        simp at hx
        rw [hx] at hfr
        exact absurd hfr (by decide)
      · obtain ⟨hb, a, v, hem, ha, hv⟩ := hrun hg hn
        refine ⟨hb, a ++ v, by rw [hem, List.append_assoc], ?_⟩
        intro y hy
        rcases List.mem_append.mp hy with hy | hy
        · rcases ha with ha | ⟨d, _, ha, _⟩ <;> rw [ha] at hy <;> simp at hy
          rw [hy]; rfl
        · rcases hv with hv | ⟨d, _, hv, _⟩ <;> rw [hv] at hy <;> simp at hy
          rw [hy]; rfl
  · intro clock s hb hb2
    obtain ⟨_, hgate, hunder, hrun⟩ := OnPlay_emitted notify clock s
    by_cases hg : gateClosed s
    · rw [hgate hg, emitted_self]
      exact ⟨by simp, rfl, rfl⟩
    · by_cases hn : (fillSlots s).m_video.frame = 0 ∧ (fillSlots s).m_audio.frame = 0
      · refine ⟨?_, ?_, ?_⟩
        · rw [(hunder hg hn).1]
          intro x hx
          simp at hx
          rw [hx]; rfl
        · rw [OnPlay_eq, if_neg hg, if_pos hn]
          exact (fillSlots_frame s).2.2.1
        · rw [OnPlay_eq, if_neg hg, if_pos hn]
          exact (fillSlots_frame s).2.2.2.1
      · rw [(hrun hg hn).1] at hb2
        exact absurd hb2 (by decide)

/-- Witness of C18: three queued video frames, stepped at 1000; the step makes a
frame call and ends with the flag cleared. -/
theorem C18_no_presentation_while_buffering_witness :
    (OnPlay silentSink 1000 threeVideoFrames).2.m_buffering = false :=
  ((C18_no_presentation_while_buffering silentSink).2.1 1000 threeVideoFrames
    ⟨SinkCall.on_video 1 0, by decide, by decide⟩).1

/-! ## C17: buffering notifications fire on transitions only -/

lemma fillSlots_audio_eq (s : AVPlayerCore) :
    (fillSlots s).m_audio = (if s.m_audio.frame = 0 then readAudio s else s).m_audio
    ∧ (fillSlots s).m_audioQ = (if s.m_audio.frame = 0 then readAudio s else s).m_audioQ := by
  have h1 : (if s.m_video.frame = 0 then readVideo s else s).m_audio = s.m_audio
      ∧ (if s.m_video.frame = 0 then readVideo s else s).m_audioQ = s.m_audioQ := by
    split
    · exact ⟨(readVideo_frame s).2.2.2.2.1, (readVideo_frame s).2.2.2.2.2.1⟩
    · exact ⟨rfl, rfl⟩
  unfold fillSlots
  generalize (if s.m_video.frame = 0 then readVideo s else s) = s1 at h1
  dsimp only
  obtain ⟨h2, h3⟩ := h1
  by_cases h : s.m_audio.frame = 0
  · rw [if_pos (by rw [h2]; exact h), if_pos h]
    simp [readAudio, AVFrameQueue.Read, h2, h3]
    cases s.m_audioQ.frames <;> simp
  · rw [if_neg (by rw [h2]; exact h), if_neg h]
    exact ⟨h2, h3⟩

lemma fillSlots_audio_head (s : AVPlayerCore) (f : AVFrame) (rest : List AVFrame)
    (h : pendingAudio s ++ s.m_audioQ.frames = f :: rest) :
    (fillSlots s).m_audio = f ∧ (fillSlots s).m_audioQ.frames = rest := by
  rw [(fillSlots_audio_eq s).1, (fillSlots_audio_eq s).2]
  unfold pendingAudio at h
  by_cases h0 : s.m_audio.frame = 0
  · rw [if_pos h0] at h
    rw [if_pos h0]
    simp only [List.nil_append] at h
    simp [readAudio, AVFrameQueue.Read, h]
  · rw [if_neg h0] at h
    rw [if_neg h0]
    simp only [List.singleton_append, List.cons.injEq] at h
    exact h

lemma fillSlots_queues_sub (s : AVPlayerCore) :
    (∀ f ∈ (fillSlots s).m_videoQ.frames, f ∈ s.m_videoQ.frames)
    ∧ (∀ f ∈ (fillSlots s).m_audioQ.frames, f ∈ s.m_audioQ.frames) := by
  rw [(fillSlots_video_eq s).2, (fillSlots_audio_eq s).2]
  constructor
  · split
    · intro f hf
      unfold readVideo AVFrameQueue.Read at hf
      cases hq : s.m_videoQ.frames with
      | nil => rw [hq] at hf; simp at hf; rw [hq] at hf; exact hf
      | cons g rest => rw [hq] at hf; simp at hf; simp [hf]
    · exact fun f hf => hf
  · split
    · intro f hf
      unfold readAudio AVFrameQueue.Read at hf
      cases hq : s.m_audioQ.frames with
      | nil => rw [hq] at hf; simp at hf; rw [hq] at hf; exact hf
      | cons g rest => rw [hq] at hf; simp at hf; simp [hf]
    · exact fun f hf => hf

lemma OnPlay_queues_sub (n : AudioSink) (c : Nat) (s : AVPlayerCore) :
    (∀ f ∈ (OnPlay n c s).2.m_videoQ.frames, f ∈ s.m_videoQ.frames)
    ∧ (∀ f ∈ (OnPlay n c s).2.m_audioQ.frames, f ∈ s.m_audioQ.frames) := by
  have hsub := fillSlots_queues_sub s
  have hcb := clearBuffering_frame (fillSlots s)
  obtain ⟨ha1, _, _⟩ := playAudio_cases n c (clearBuffering (fillSlots s))
  obtain ⟨hv1, _⟩ := playVideo_cases c (playAudio n c (clearBuffering (fillSlots s))).1
    (playAudio n c (clearBuffering (fillSlots s))).2
  rw [OnPlay_eq]
  split
  · exact ⟨fun f hf => hf, fun f hf => hf⟩
  · split
    · exact hsub
    · rw [hv1.2.1, hv1.2.2.1, ha1.2.1, ha1.2.2.1, hcb.2.2.2.1, hcb.2.2.2.2.1]
      exact hsub

/-- With the flag set, the gate open and no `NULL` payload queued, the reads
fill at least one pending slot. -/
lemma gate_open_fills (s : AVPlayerCore) (hq : queuesNonNull s) (hb : s.m_buffering = true)
    (hg : ¬ gateClosed s) :
    ¬ ((fillSlots s).m_video.frame = 0 ∧ (fillSlots s).m_audio.frame = 0) := by
  intro hn
  have hopen : 3 ≤ s.m_videoQ.Size ∨ 100 ≤ s.m_audioQ.GetDuration := by
    unfold gateClosed at hg
    by_contra hcon
    apply hg
    refine ⟨hb, ?_, ?_⟩ <;> omega
  rcases hopen with h | h
  · cases hfr : s.m_videoQ.frames with
    | nil => simp [AVFrameQueue.Size, hfr] at h
    | cons g rest =>
      have hg0 : g.frame ≠ 0 := hq.1 g (by rw [hfr]; exact List.mem_cons_self _ _)
      by_cases h0 : s.m_video.frame = 0
      · have := fillSlots_head s g rest (by simp [pendingVideo, h0, hfr])
        rw [this.1] at hn
        exact hg0 hn.1
      · have := fillSlots_head s s.m_video (g :: rest) (by simp [pendingVideo, h0, hfr])
        rw [this.1] at hn
        exact h0 hn.1
  · cases hfr : s.m_audioQ.frames with
    | nil => simp [AVFrameQueue.GetDuration, hfr] at h
    | cons g rest =>
      have hg0 : g.frame ≠ 0 := hq.2 g (by rw [hfr]; exact List.mem_cons_self _ _)
      by_cases h0 : s.m_audio.frame = 0
      · have := fillSlots_audio_head s g rest (by simp [pendingAudio, h0, hfr])
        rw [this.1] at hn
        exact hg0 hn.2
      · have := fillSlots_audio_head s s.m_audio (g :: rest) (by simp [pendingAudio, h0, hfr])
        rw [this.1] at hn
        exact h0 hn.2

lemma bufValues_append (a b : List SinkCall) :
    bufValues (a ++ b) = bufValues a ++ bufValues b := by
  induction a with
  | nil => rfl
  | cons x rest ih => cases x <;> simp [bufValues, ih]

lemma mem_bufValues (b : Nat) (l : List SinkCall) :
    b ∈ bufValues l ↔ SinkCall.on_buffering b ∈ l := by
  induction l with
  | nil => simp [bufValues]
  | cons x rest ih => cases x <;> simp [bufValues, ih]

lemma bufValues_frames (l : List SinkCall) (h : ∀ x ∈ l, x.isFrame = true) :
    bufValues l = [] := by
  induction l with
  | nil => rfl
  | cons x rest ih =>
    have hx := h x (List.mem_cons_self _ _)
    cases x with
    | on_buffering b => simp [SinkCall.isFrame] at hx
    | on_video p d => exact ih (fun y hy => h y (List.mem_cons_of_mem _ hy))
    | on_audio p d => exact ih (fun y hy => h y (List.mem_cons_of_mem _ hy))

/-- The `on_buffering` calls of a step, when no queued payload is `NULL`: none if
the flag ends as it started, and otherwise one call with the new flag. -/
lemma OnPlay_bufValues (n : AudioSink) (c : Nat) (s : AVPlayerCore) (hq : queuesNonNull s) :
    bufValues (emitted s (OnPlay n c s).2)
      = (if (OnPlay n c s).2.m_buffering = s.m_buffering then []
          else [if (OnPlay n c s).2.m_buffering = true then 1 else 0]) := by
  obtain ⟨_, hgate, hunder, hrun⟩ := OnPlay_emitted n c s
  by_cases hg : gateClosed s
  · rw [hgate hg, emitted_self]
    simp [bufValues]
  · by_cases hn : (fillSlots s).m_video.frame = 0 ∧ (fillSlots s).m_audio.frame = 0
    · obtain ⟨hem, _, hb2⟩ := hunder hg hn
      have hb : s.m_buffering = false := by
        by_contra hb
        exact gate_open_fills s hq (by simpa using hb) hg hn
      rw [hem, hb2, hb]
      simp [bufValues]
    · obtain ⟨hb2, a, v, hem, ha, hv⟩ := hrun hg hn
      have hfa : bufValues a = [] := by
        rcases ha with ha | ⟨d, _, ha, _⟩ <;> rw [ha] <;> rfl
      have hfv : bufValues v = [] := by
        rcases hv with hv | ⟨d, _, hv, _⟩ <;> rw [hv] <;> rfl
      rw [hem, bufValues_append, bufValues_append, hfa, hfv, hb2]
      by_cases hb : s.m_buffering = true
      · rw [hb]
        simp [bufValues]
      · have hb' : s.m_buffering = false := by simpa using hb
        rw [hb']
        simp [bufValues]

lemma flagAfter_append (l l2 : List Nat) :
    ∀ (c d : Bool), flagAfter c l = some d → flagAfter c (l ++ l2) = flagAfter d l2 := by
  induction l with
  | nil =>
    intro c d h
    simp only [flagAfter, Option.some.injEq] at h
    rw [List.nil_append, h]
  | cons x rest ih =>
    intro c d h
    simp only [flagAfter] at h
    simp only [List.cons_append, flagAfter]
    by_cases hx : x = (if c = true then 0 else 1)
    · rw [if_pos hx] at h
      rw [if_pos hx]
      exact ih _ _ h
    · rw [if_neg hx] at h
      exact absurd h (by simp)

lemma flagAfter_chain (l : List Nat) :
    ∀ (c d : Bool), flagAfter c l = some d → List.Chain' (fun a b => a ≠ b) l := by
  induction l with
  | nil => intro c d _; exact List.chain'_nil
  | cons x rest ih =>
    intro c d h
    simp only [flagAfter] at h
    by_cases hx : x = (if c = true then 0 else 1)
    · rw [if_pos hx] at h
      cases rest with
      | nil => exact List.chain'_singleton x
      | cons y r =>
        have hch := ih _ _ h
        refine List.chain'_cons.mpr ⟨?_, hch⟩
        simp only [flagAfter] at h
        by_cases hy : y = (if (!c) = true then 0 else 1)
        · rw [hx, hy]
          cases c <;> simp
        · rw [if_neg hy] at h
          exact absurd h (by simp)
    · rw [if_neg hx] at h
      exact absurd h (by simp)

lemma toggleInv_OnPlay (n : AudioSink) (c : Nat) (s : AVPlayerCore) (h : toggleInv s) :
    toggleInv (OnPlay n c s).2 := by
  obtain ⟨hfl, hq⟩ := h
  have hbv := OnPlay_bufValues n c s hq
  have htr := (OnPlay_emitted n c s).1
  have hsub := OnPlay_queues_sub n c s
  refine ⟨?_, fun f hf => hq.1 f (hsub.1 f hf), fun f hf => hq.2 f (hsub.2 f hf)⟩
  rw [htr, bufValues_append, flagAfter_append _ _ _ _ hfl, hbv]
  cases hb : s.m_buffering <;> cases hb2 : (OnPlay n c s).2.m_buffering <;>
    simp [flagAfter]

lemma toggleInv_step (n : AudioSink) (a : Action) (s : AVPlayerCore) (ha : a.nonNull)
    (h : toggleInv s) : toggleInv (step n a s) := by
  cases a with
  | onPlay c => exact toggleInv_OnPlay n c s h
  | play => exact h
  | pause => exact h
  | stop => exact h
  | inputVideo yuv pts serial =>
    refine ⟨h.1, ?_, h.2.2⟩
    intro f hf
    simp only [step, InputVideo, AVFrameQueue.Write, List.mem_append,
      List.mem_singleton] at hf
    rcases hf with hf | hf
    · exact h.2.1 f hf
    · rw [hf]; exact ha
  | inputAudio pcm pts duration serial =>
    refine ⟨h.1, h.2.1, ?_⟩
    intro f hf
    simp only [step, InputAudio, AVFrameQueue.Write, List.mem_append,
      List.mem_singleton] at hf
    rcases hf with hf | hf
    · exact h.2.2 f hf
    · rw [hf]; exact ha

lemma toggleInv_run (n : AudioSink) (acts : List Action) :
    ∀ s, (∀ a ∈ acts, a.nonNull) → toggleInv s → toggleInv (run n acts s) := by
  induction acts with
  | nil => intro s _ h; exact h
  | cons a rest ih =>
    intro s hacts h
    exact ih _ (fun b hb => hacts b (List.mem_cons_of_mem _ hb))
      (toggleInv_step n a s (hacts a (List.mem_cons_self _ _)) h)

/-- C17: when no queued payload is `NULL`, a step calls `on_buffering(1)` exactly
when it changes the flag from false to true, and `on_buffering(0)` exactly when
it changes the flag from true to false; it makes at most one such call, never
with the value the flag already had; the step that calls `on_buffering(1)` had
no pending frame and found both queues empty, returns 20 and leaves both clocks
unchanged. Hence over any sequence of calls from the constructed state that
writes no `NULL` payload, the `on_buffering` calls strictly alternate, starting
with `on_buffering(0)`, and the last one tells the current flag. -/
theorem C17_buffering_transitions (notify : AudioSink) :
    (∀ (clock : Nat) (s : AVPlayerCore), queuesNonNull s →
      (SinkCall.on_buffering 1 ∈ emitted s (OnPlay notify clock s).2
          ↔ s.m_buffering = false ∧ (OnPlay notify clock s).2.m_buffering = true)
      ∧ (SinkCall.on_buffering 0 ∈ emitted s (OnPlay notify clock s).2
          ↔ s.m_buffering = true ∧ (OnPlay notify clock s).2.m_buffering = false)
      ∧ (bufValues (emitted s (OnPlay notify clock s).2)).length ≤ 1
      ∧ (∀ b, SinkCall.on_buffering b ∈ emitted s (OnPlay notify clock s).2 →
          b = (if s.m_buffering = true then 0 else 1))
      ∧ (SinkCall.on_buffering 1 ∈ emitted s (OnPlay notify clock s).2 →
          (OnPlay notify clock s).1 = 20
          ∧ s.m_video.frame = 0 ∧ s.m_audio.frame = 0
          ∧ s.m_videoQ.frames = [] ∧ s.m_audioQ.frames = []
          ∧ (OnPlay notify clock s).2.m_vclock = s.m_vclock
          ∧ (OnPlay notify clock s).2.m_aclock = s.m_aclock))
    ∧ (∀ (vs as : Int) (acts : List Action), (∀ a ∈ acts, a.nonNull) →
        flagAfter true (bufValues (run notify acts (construct vs as)).trace)
          = some (run notify acts (construct vs as)).m_buffering
        ∧ List.Chain' (fun a b => a ≠ b)
            (bufValues (run notify acts (construct vs as)).trace)) := by
  constructor
  · intro clock s hq
    have hbv := OnPlay_bufValues notify clock s hq
    have h1 : SinkCall.on_buffering 1 ∈ emitted s (OnPlay notify clock s).2
        ↔ s.m_buffering = false ∧ (OnPlay notify clock s).2.m_buffering = true := by
      rw [← mem_bufValues, hbv]
      cases hb : s.m_buffering <;> cases hb2 : (OnPlay notify clock s).2.m_buffering <;> simp
    refine ⟨h1, ?_, ?_, ?_, ?_⟩
    · rw [← mem_bufValues, hbv]
      cases hb : s.m_buffering <;> cases hb2 : (OnPlay notify clock s).2.m_buffering <;> simp
    · rw [hbv]
      split <;> simp
    · intro b hb
      rw [← mem_bufValues, hbv] at hb
      revert hb
      cases hb1 : s.m_buffering <;> cases hb2 : (OnPlay notify clock s).2.m_buffering <;> simp
    · intro hmem
      obtain ⟨hb, hb2⟩ := h1.mp hmem
      obtain ⟨_, hgate, hunder, hrun⟩ := OnPlay_emitted notify clock s
      have hg : ¬ gateClosed s := by
        intro hg
        rw [hg.1] at hb
        exact absurd hb (by decide)
      have hn : (fillSlots s).m_video.frame = 0 ∧ (fillSlots s).m_audio.frame = 0 := by
        by_contra hn
        rw [(hrun hg hn).1] at hb2
        exact absurd hb2 (by decide)
      have hv0 : s.m_video.frame = 0 := by
        by_contra h0
        have := fillSlots_head s s.m_video s.m_videoQ.frames (by simp [pendingVideo, h0])
        rw [this.1] at hn
        exact h0 hn.1
      have ha0 : s.m_audio.frame = 0 := by
        by_contra h0
        have := fillSlots_audio_head s s.m_audio s.m_audioQ.frames (by simp [pendingAudio, h0])
        rw [this.1] at hn
        exact h0 hn.2
      have hvq : s.m_videoQ.frames = [] := by
        cases hfr : s.m_videoQ.frames with
        | nil => rfl
        | cons g rest =>
          have := fillSlots_head s g rest (by simp [pendingVideo, hv0, hfr])
          rw [this.1] at hn
          exact absurd hn.1 (hq.1 g (by rw [hfr]; exact List.mem_cons_self _ _))
      have haq : s.m_audioQ.frames = [] := by
        cases hfr : s.m_audioQ.frames with
        | nil => rfl
        | cons g rest =>
          have := fillSlots_audio_head s g rest (by simp [pendingAudio, ha0, hfr])
          rw [this.1] at hn
          exact absurd hn.2 (hq.2 g (by rw [hfr]; exact List.mem_cons_self _ _))
      refine ⟨(hunder hg hn).2.1, hv0, ha0, hvq, haq, ?_, ?_⟩
      · rw [OnPlay_eq, if_neg hg, if_pos hn]
        exact (fillSlots_frame s).2.2.1
      · rw [OnPlay_eq, if_neg hg, if_pos hn]
        exact (fillSlots_frame s).2.2.2.1
  · intro vs as acts hacts
    have h0 : toggleInv (construct vs as) := by
      refine ⟨rfl, ?_, ?_⟩ <;> intro f hf <;> simp [construct] at hf
    have hinv := toggleInv_run notify acts _ hacts h0
    exact ⟨hinv.1, flagAfter_chain _ _ _ hinv.1⟩

/-- Witness of C17: three queued video frames with the flag set, stepped at
1000: the flag changes from true to false and `on_buffering(0)` is called. -/
theorem C17_buffering_transitions_witness :
    SinkCall.on_buffering 0 ∈ emitted threeVideoFrames (OnPlay silentSink 1000 threeVideoFrames).2
      ↔ threeVideoFrames.m_buffering = true
        ∧ (OnPlay silentSink 1000 threeVideoFrames).2.m_buffering = false :=
  ((C17_buffering_transitions silentSink).1 1000 threeVideoFrames
    (by unfold queuesNonNull; decide)).2.1

end AVPlayer
